import Mathlib

/-!
Shallow embedding of the request-fulfillment engine of the mimirr
repository: the Entity Matcher / Acquisition Submitter
(`BookshelfService.addBook` in `src/lib/services/bookshelf.service.ts`),
the Reconciliation Poller (`RequestService.pollProcessingRequests`),
request creation (`RequestService.createRequest`) and the approval route
(`src/app/api/requests/[id]/approve/route.ts`), together with theorems
settling the specification claims about them.

Strings are modelled over their character lists; JavaScript string
operations (`toLowerCase`, `includes`, `trim`, the regex replaces used by
`normalizeTitle`) are embedded for the ASCII range. Machine `fetch` calls
are modelled by an explicit external-server state (`ExtServer`) whose
endpoint semantics follow §6 of the specification, and every external
call made by the embedded code is recorded in a trace (`ExtCall`).
-/

namespace Mimirr

/-- ASCII whitespace, as matched by the JavaScript regex class `\s`
(restricted to the ASCII range, which covers all inputs considered here). -/
def jsIsSpaceChar (c : Char) : Bool :=
  c == ' ' || c == '\t' || c == '\n' || c == '\r' || c == '\x0b' || c == '\x0c'

/-- ASCII word characters, as matched by the JavaScript regex class `\w`. -/
def jsIsWordChar (c : Char) : Bool :=
  ('a' ≤ c && c ≤ 'z') || ('A' ≤ c && c ≤ 'Z') || ('0' ≤ c && c ≤ '9') || c == '_'

/-- JavaScript `String.prototype.toLowerCase` on the ASCII range. -/
def jsToLower (s : String) : String :=
  ⟨s.data.map Char.toLower⟩

/-- List-level check that `pat` starts `hay`. -/
def startsWithB : List Char → List Char → Bool
  | [], _ => true
  | _ :: _, [] => false
  | a :: as, b :: bs => a == b && startsWithB as bs

/-- List-level substring containment: does `pat` occur inside `hay`? -/
def isSubB (pat : List Char) : List Char → Bool
  | [] => pat.isEmpty
  | c :: rest => startsWithB pat (c :: rest) || isSubB pat rest

/-- JavaScript `hay.includes(pat)`. -/
def strIncludes (hay pat : String) : Bool :=
  isSubB pat.data hay.data

/-- The prefix of a character list before the first `':'`; embeds the
JavaScript `title.split(':')[0]`. -/
def takeUntilColon : List Char → List Char
  | [] => []
  | c :: cs => if c == ':' then [] else c :: takeUntilColon cs

/-- JavaScript `String.prototype.trim` (ASCII whitespace). -/
def trimChars (l : List Char) : List Char :=
  ((l.dropWhile jsIsSpaceChar).reverse.dropWhile jsIsSpaceChar).reverse

/-- Helper for `collapseWs`: the flag records whether the previous
character was whitespace (i.e. whether we are inside a whitespace run). -/
def collapseWsAux : Bool → List Char → List Char
  | _, [] => []
  | prevSpace, c :: cs =>
    if jsIsSpaceChar c then
      if prevSpace then collapseWsAux true cs
      else ' ' :: collapseWsAux true cs
    else c :: collapseWsAux false cs

/-- JavaScript `.replace(/\s+/g, ' ')`: every whitespace run becomes one space. -/
def collapseWs (l : List Char) : List Char :=
  collapseWsAux false l

/-- The `normalizeTitle` helper of `BookshelfService.addBook`
(`bookshelf.service.ts` lines 372-379): lower-case, truncate at the first
colon, trim, strip characters that are neither word nor whitespace
(`.replace(/[^\w\s]/g, '')`), collapse whitespace runs. -/
def normalizeTitle (t : String) : String :=
  ⟨collapseWs (((takeUntilColon (t.data.map Char.toLower)).reverse.dropWhile
      jsIsSpaceChar).reverse.dropWhile jsIsSpaceChar
      |>.filter (fun c => jsIsWordChar c || jsIsSpaceChar c))⟩

/-- Embedded author reference inside a book-lookup result (`book.author`). -/
structure LookupBookAuthor where
  foreignAuthorId : String
  authorName : String
  deriving DecidableEq, Repr

/-- A book-lookup result (`GET /book/lookup` entry): title, foreign book
id and the optional embedded author record. -/
structure BookRecord where
  title : String
  foreignBookId : String
  author : Option LookupBookAuthor
  deriving DecidableEq, Repr

/-- The matching predicate of `BookshelfService.addBook`
(`bookshelf.service.ts` lines 385-416): the four strategies are tried in
order on one candidate, returning at the first that matches. -/
def bookMatchPred (searchTitle : String) (b : BookRecord) : Bool :=
  if jsToLower b.title == jsToLower searchTitle then true
  else if normalizeTitle b.title == normalizeTitle searchTitle then true
  else if strIncludes (jsToLower b.title) (jsToLower searchTitle)
        || strIncludes (jsToLower searchTitle) (jsToLower b.title) then true
  else if strIncludes (normalizeTitle b.title) (normalizeTitle searchTitle)
        || strIncludes (normalizeTitle searchTitle) (normalizeTitle b.title) then true
  else false

/-- `bookResults.find(...)` of `addBook`: the first candidate in list
order satisfying `bookMatchPred`. -/
def findBookMatch (searchTitle : String) (results : List BookRecord) : Option BookRecord :=
  results.find? (bookMatchPred searchTitle)

/-- Matching tier (a) of the specification: exact case-insensitive title equality. -/
def tierA (q : String) (b : BookRecord) : Bool :=
  jsToLower b.title == jsToLower q

/-- Matching tier (b) of the specification: exact equality of normalized titles. -/
def tierB (q : String) (b : BookRecord) : Bool :=
  normalizeTitle b.title == normalizeTitle q

/-- Matching tier (c) of the specification: raw substring containment either direction. -/
def tierC (q : String) (b : BookRecord) : Bool :=
  strIncludes (jsToLower b.title) (jsToLower q)
    || strIncludes (jsToLower q) (jsToLower b.title)

/-- Matching tier (d) of the specification: normalized substring containment either direction. -/
def tierD (q : String) (b : BookRecord) : Bool :=
  strIncludes (normalizeTitle b.title) (normalizeTitle q)
    || strIncludes (normalizeTitle q) (normalizeTitle b.title)

/-! ## External-server model

`BookshelfService.addBook` talks to the external library-management
system over HTTP. The server is modelled as an explicit state: a static
metadata namespace (author lookup and book lookup are pure functions of
the query term), a root-folder list, and the mutable library of created
author records. `POST /author` either creates a record (assigning
`nextId`) or — when an author with the same `foreignAuthorId` is already
in the library — rejects with HTTP 400 and a body containing the
`AuthorExistsValidator` substring, leaving the state unchanged (§6 of
the specification). `postAuthorOverride` lets a scenario force an
arbitrary error response, so every error branch of `addBook` is
reachable. -/

/-- A metadata-namespace author entry. -/
structure MetaAuthor where
  foreignAuthorId : String
  authorName : String
  deriving DecidableEq, Repr

/-- An author record created in the external library. -/
structure ServerAuthor where
  id : Nat
  foreignAuthorId : String
  authorName : String
  deriving DecidableEq, Repr

/-- An author-lookup result as seen by the client: metadata fields plus
the library id when the author already exists in the library. -/
structure AuthorLookupResult where
  id : Option Nat
  foreignAuthorId : String
  authorName : String
  deriving DecidableEq, Repr, Inhabited

/-- State of the external library-management system. -/
structure ExtServer where
  metaAuthors : String → List MetaAuthor
  metaBooks : String → List BookRecord
  bookLookupOk : String → Bool
  rootFolders : List String
  libraryAuthors : List ServerAuthor
  nextId : Nat
  postAuthorOverride : Option (Nat × String)

/-- `GET /author/lookup?term=`: metadata results, annotated with the
library id of any already-created author with the same foreign id. -/
def authorLookupEndpoint (srv : ExtServer) (term : String) : List AuthorLookupResult :=
  (srv.metaAuthors term).map (fun m =>
    { id := (srv.libraryAuthors.find? (fun a => a.foreignAuthorId == m.foreignAuthorId)).map
        (fun a => a.id)
      foreignAuthorId := m.foreignAuthorId
      authorName := m.authorName })

/-- The `addOptions` object built by `addBook` (lines 456-461). -/
structure AuthorAddOptions where
  monitor : String
  searchForMissingBooks : Bool
  monitored : Bool
  booksToMonitor : List String
  deriving DecidableEq, Repr

/-- The `authorToAdd` body POSTed by `addBook` (lines 449-462). -/
structure AuthorToAdd where
  foreignAuthorId : String
  authorName : String
  qualityProfileId : Nat
  metadataProfileId : Nat
  monitored : Bool
  rootFolderPath : String
  addOptions : AuthorAddOptions
  deriving DecidableEq, Repr

/-- `POST /author`: `.ok` is an HTTP 2xx response carrying the created
record, `.error (status, body)` any other response. -/
def postAuthorEndpoint (srv : ExtServer) (body : AuthorToAdd) :
    Except (Nat × String) ServerAuthor × ExtServer :=
  match srv.postAuthorOverride with
  | some e => (.error e, srv)
  | none =>
    if srv.libraryAuthors.any (fun a => a.foreignAuthorId == body.foreignAuthorId) then
      (.error (400, "AuthorExistsValidator: an author with this id already exists"), srv)
    else
      let a : ServerAuthor :=
        { id := srv.nextId
          foreignAuthorId := body.foreignAuthorId
          authorName := body.authorName }
      (.ok a,
        { srv with
            libraryAuthors := srv.libraryAuthors ++ [a]
            nextId := srv.nextId + 1 })

/-- One external HTTP call made by the embedded code, for tracing which
endpoints an operation touches. -/
inductive ExtCall where
  | authorLookup (term : String)
  | bookLookup (term : String)
  | rootFolder
  | postAuthor (body : AuthorToAdd)
  deriving DecidableEq, Repr

/-- Input of `addBook` (the `bookData` argument). -/
structure AddBookInput where
  title : String
  author : String
  isbn : Option String
  qualityProfileId : Nat
  deriving DecidableEq, Repr

/-- Result of `addBook`: `{success: true, bookshelfId}` or
`{success: false, error}`. `bookshelfId` stays optional because the code
forwards `data.id` without checking its presence. -/
inductive AddBookResult where
  | success (bookshelfId : Option Nat)
  | failure (error : String)
  deriving DecidableEq, Repr

/-- JavaScript truthiness choice `a || b` for an optional string `a`
(`undefined` and the empty string are falsy). -/
def jsStrOr (a : Option String) (b : String) : String :=
  match a with
  | some s => if s == "" then b else s
  | none => b

/-- The `authorToAdd` body that `addBook` POSTs (lines 449-462): the
foreign id and name of `authorResults[0]`, the requested quality
profile, the first root folder, and an allow-list holding only the
matched book. -/
def addBookBody (srv : ExtServer) (bd : AddBookInput) (bookMatch : BookRecord) : AuthorToAdd :=
  { foreignAuthorId := (authorLookupEndpoint srv bd.author).headI.foreignAuthorId
    authorName := (authorLookupEndpoint srv bd.author).headI.authorName
    qualityProfileId := bd.qualityProfileId
    metadataProfileId := 1
    monitored := true
    rootFolderPath := srv.rootFolders.headI
    addOptions :=
      { monitor := "none"
        searchForMissingBooks := true
        monitored := true
        booksToMonitor := [bookMatch.foreignBookId] } }

/-- `BookshelfService.addBook` (`bookshelf.service.ts` lines 319-542),
embedded as a state-passing function over the external server; the third
component records every external call in order. -/
def addBook (srv : ExtServer) (bd : AddBookInput) :
    AddBookResult × ExtServer × List ExtCall :=
  if (authorLookupEndpoint srv bd.author).isEmpty then
    (.failure "Author not found in metadata provider", srv, [.authorLookup bd.author])
  else
    let bookSearchQuery := jsStrOr bd.isbn bd.title
    let calls1 := [ExtCall.authorLookup bd.author, ExtCall.bookLookup bookSearchQuery]
    if !srv.bookLookupOk bookSearchQuery then
      (.failure "Failed to lookup book", srv, calls1)
    else
      match findBookMatch bd.title (srv.metaBooks bookSearchQuery) with
      | none => (.failure "Book not found in metadata", srv, calls1)
      | some bookMatch =>
        if srv.rootFolders.isEmpty then
          (.failure "No root folder configured in Bookshelf", srv,
            calls1 ++ [ExtCall.rootFolder])
        else
          let authorToAdd := addBookBody srv bd bookMatch
          let calls3 := calls1 ++ [ExtCall.rootFolder, ExtCall.postAuthor authorToAdd]
          match postAuthorEndpoint srv authorToAdd with
          | (.ok a, srv1) => (.success (some a.id), srv1, calls3)
          | (.error (status, errorText), srv1) =>
            if status == 400 && strIncludes errorText "AuthorExistsValidator" then
              match (authorLookupEndpoint srv1
                  (authorLookupEndpoint srv bd.author).headI.authorName).find?
                  (fun a => a.foreignAuthorId
                    == (authorLookupEndpoint srv bd.author).headI.foreignAuthorId) with
              | some existingAuthor =>
                (.success existingAuthor.id, srv1,
                  calls3 ++ [.authorLookup (authorLookupEndpoint srv bd.author).headI.authorName])
              | none =>
                (.failure "Author exists but could not be found", srv1,
                  calls3 ++ [.authorLookup (authorLookupEndpoint srv bd.author).headI.authorName])
            else
              (.failure "Failed to add author", srv1, calls3)

/-- The library record matching a foreign author id (the join performed
both by the author-lookup annotation and by the conflict check). -/
def libFind (srv : ExtServer) (fid : String) : Option ServerAuthor :=
  srv.libraryAuthors.find? (fun a => a.foreignAuthorId == fid)

/-- Foreign author id of the first author-lookup result (`authorResults[0]`). -/
def headFid (srv : ExtServer) (term : String) : String :=
  ((authorLookupEndpoint srv term).headI).foreignAuthorId

/-- Whether an external call is a book-lookup request. -/
def isBookLookupCall : ExtCall → Bool
  | .bookLookup _ => true
  | _ => false

/-! ## Concrete scenarios used by counterexamples and witnesses -/

/-- Scenario server for the idempotency claim: one metadata author, one
metadata book, a configured root folder, an empty library. -/
def srvC1 : ExtServer :=
  { metaAuthors := fun _ => [⟨"A1", "Jane Doe"⟩]
    metaBooks := fun _ => [⟨"The Hobbit", "B1", none⟩]
    bookLookupOk := fun _ => true
    rootFolders := ["/books"]
    libraryAuthors := []
    nextId := 7
    postAuthorOverride := none }

/-- Scenario input for the idempotency claim. -/
def bdC1 : AddBookInput :=
  { title := "The Hobbit", author := "Jane Doe", isbn := none, qualityProfileId := 3 }

/-- Scenario server for the author-reconciliation claim: the author
lookup yields id `A1`, but the matched book's embedded author id is `A2`. -/
def srvC2 : ExtServer :=
  { metaAuthors := fun _ => [⟨"A1", "Jane Doe"⟩]
    metaBooks := fun _ => [⟨"The Hobbit", "B1", some ⟨"A2", "Jane A. Doe"⟩⟩]
    bookLookupOk := fun _ => true
    rootFolders := ["/books"]
    libraryAuthors := []
    nextId := 5
    postAuthorOverride := none }

/-- Scenario input for the author-reconciliation claim. -/
def bdC2 : AddBookInput :=
  { title := "The Hobbit", author := "Jane Doe", isbn := none, qualityProfileId := 2 }

/-- Scenario server for the no-match claim: the author lookup is empty. -/
def srvC7 : ExtServer :=
  { metaAuthors := fun _ => []
    metaBooks := fun _ => [⟨"The Hobbit", "B1", none⟩]
    bookLookupOk := fun _ => true
    rootFolders := ["/books"]
    libraryAuthors := []
    nextId := 1
    postAuthorOverride := none }

/-- Scenario input for the no-match claim. -/
def bdC7 : AddBookInput :=
  { title := "The Hobbit", author := "Nobody", isbn := none, qualityProfileId := 1 }

/-- Scenario server for the ISBN-fallback claim: the ISBN query `123`
returns zero book results, while a title or title+author query would
return the matching book. -/
def srvC8 : ExtServer :=
  { metaAuthors := fun _ => [⟨"A1", "Jane Doe"⟩]
    metaBooks := fun term => if term == "123" then [] else [⟨"The Hobbit", "B1", none⟩]
    bookLookupOk := fun _ => true
    rootFolders := ["/books"]
    libraryAuthors := []
    nextId := 1
    postAuthorOverride := none }

/-- Scenario input for the ISBN-fallback claim: an ISBN is present. -/
def bdC8 : AddBookInput :=
  { title := "The Hobbit", author := "Jane Doe", isbn := some "123", qualityProfileId := 1 }

/-! ## Request store and Reconciliation Poller

The `requests` table (`src/lib/db/schema.ts`) is modelled as a list of
rows; timestamps are abstract `Nat` instants. `db.update(...).where(eq(id))`
becomes a map over the rows touching the matching id. -/

/-- The `status` column enum. -/
inductive Status where
  | pending
  | approved
  | declined
  | available
  | processing
  deriving DecidableEq, Repr

/-- A row of the `requests` table (the columns this engine touches). -/
structure Req where
  id : Nat
  userId : Nat
  bookId : String
  qualityProfileId : Nat
  status : Status
  bookshelfId : Option Nat
  requestedAt : Option Nat
  processedAt : Option Nat
  processedBy : Option Nat
  notes : Option String
  completedAt : Option Nat
  lastPolledAt : Option Nat
  deriving DecidableEq, Repr

/-- A row of the internal book-metadata cache (`BookService.getBookById`). -/
structure CachedBook where
  title : String
  author : Option String
  isbn : Option String
  isbn13 : Option String
  deriving DecidableEq, Repr

/-- JavaScript truthiness of an optional string setting value
(`!bookshelfUrl` is true for a missing row and for the empty string). -/
def jsTruthy : Option String → Bool
  | some s => s != ""
  | none => false

/-- Result of `BookshelfService.getAuthorBookStatus`. -/
inductive BookStatus where
  | available (bookFileCount : Nat)
  | downloading
  | missing
  | error (msg : String)
  deriving DecidableEq, Repr

/-- An entry of `GET /book?authorId=`: foreign book id, download
statistics and the `grabbed` flag. -/
structure AuthorBook where
  foreignBookId : String
  bookFileCount : Option Nat
  grabbed : Bool
  deriving DecidableEq, Repr

/-- `BookshelfService.getAuthorBookStatus` (`bookshelf.service.ts` lines
550-660): `resp` is the outcome of `GET /book?authorId=` (`.error` for a
non-OK response or transport failure). The entry with the request's
foreign book id is classified by `bookFileCount > 0`, then `grabbed`. -/
def getAuthorBookStatus (resp : Except String (List AuthorBook))
    (foreignBookId : String) : BookStatus :=
  match resp with
  | .error e => .error e
  | .ok books =>
    match books.find? (fun b => b.foreignBookId == foreignBookId) with
    | none => .error "Book not found in author books"
    | some book =>
      let bookFileCount := book.bookFileCount.getD 0
      if bookFileCount > 0 then .available bookFileCount
      else if book.grabbed then .downloading
      else .missing

/-- Environment of one `pollProcessingRequests` run: the internal
book-metadata cache, the external per-author book list (indexed by the
stored `bookshelfId`), and the current instant. -/
structure PollEnv where
  getBook : String → Option CachedBook
  authorBooks : Nat → Except String (List AuthorBook)
  now : Nat

/-- What the poll loop body decides for one request: `skip` when the
internal book-details lookup fails (the loop `continue`s before any
update), `errorStay` on an `error` classification, `stay` on
`downloading`/`missing`, `promote` on `available`. -/
inductive Outcome where
  | skip
  | errorStay
  | stay
  | promote (bookTitle : String)
  deriving DecidableEq, Repr

/-- The loop body's classification of one polled request. -/
def pollOutcome (env : PollEnv) (r : Req) : Outcome :=
  match env.getBook r.bookId with
  | none => .skip
  | some book =>
    match getAuthorBookStatus (env.authorBooks (r.bookshelfId.getD 0)) r.bookId with
    | .available _ => .promote book.title
    | .error _ => .errorStay
    | .downloading => .stay
    | .missing => .stay

/-- The row update the loop body writes for one outcome: nothing on
`skip`, `lastPolledAt` alone on `errorStay` and `stay`, and the
`available` transition (status, `completedAt`, `lastPolledAt`) on
`promote`. -/
def applyOutcome (now : Nat) (o : Outcome) (x : Req) : Req :=
  match o with
  | .skip => x
  | .errorStay => { x with lastPolledAt := some now }
  | .stay => { x with lastPolledAt := some now }
  | .promote _ =>
    { x with status := .available, completedAt := some now, lastPolledAt := some now }

/-- One detail entry of the poll summary. -/
structure PollDetail where
  requestId : Nat
  bookTitle : String
  oldStatus : String
  newStatus : String
  deriving DecidableEq, Repr

/-- The aggregate result of `pollProcessingRequests`. -/
structure PollSummary where
  checked : Nat
  updated : Nat
  errors : Nat
  details : List PollDetail
  deriving DecidableEq, Repr

/-- Loop accumulator: the evolving table plus the counters. -/
structure PollAcc where
  db : List Req
  checked : Nat
  updated : Nat
  errors : Nat
  details : List PollDetail
  deriving DecidableEq, Repr

/-- Whether an outcome increments the `errors` counter. -/
def isErrOutcome : Outcome → Bool
  | .skip => true
  | .errorStay => true
  | _ => false

/-- Whether an outcome increments the `updated` counter. -/
def isPromoteOutcome : Outcome → Bool
  | .promote _ => true
  | _ => false

/-- The detail entry pushed for a promoted request. -/
def detailFor (r : Req) : Outcome → Option PollDetail
  | .promote title => some ⟨r.id, title, "processing", "available"⟩
  | _ => none

/-- One iteration of the poll loop over the snapshot row `r`:
`checked++`, classify, count, and apply the row update to the evolving
table at `r.id`. -/
def pollOne (env : PollEnv) (acc : PollAcc) (r : Req) : PollAcc :=
  let o := pollOutcome env r
  { db := acc.db.map (fun x => if x.id == r.id then applyOutcome env.now o x else x)
    checked := acc.checked + 1
    updated := acc.updated + (if isPromoteOutcome o then 1 else 0)
    errors := acc.errors + (if isErrOutcome o then 1 else 0)
    details := acc.details ++ (detailFor r o).toList }

/-- The poll query: status `processing` and a non-null `bookshelfId`. -/
def selectToPoll (db : List Req) : List Req :=
  db.filter (fun r => r.status == Status.processing && r.bookshelfId.isSome)

/-- `RequestService.pollProcessingRequests` (`request.service.ts` lines
302-503): short-circuits to zero counts when either setting is falsy or
no request matches the poll query, otherwise folds the loop body over
the selected snapshot. -/
def pollProcessingRequests (env : PollEnv) (urlSetting apiKeySetting : Option String)
    (db : List Req) : PollSummary × List Req :=
  if !jsTruthy urlSetting || !jsTruthy apiKeySetting then
    (⟨0, 0, 0, []⟩, db)
  else
    let requestsToPoll := selectToPoll db
    if requestsToPoll.isEmpty then
      (⟨0, 0, 0, []⟩, db)
    else
      let acc := requestsToPoll.foldl (pollOne env) ⟨db, 0, 0, 0, []⟩
      (⟨acc.checked, acc.updated, acc.errors, acc.details⟩, acc.db)

/-- The per-row effect of one loop iteration on an arbitrary table row
(`db.update ... where id = r.id`). -/
def stepRow (env : PollEnv) (x r : Req) : Req :=
  if x.id == r.id then applyOutcome env.now (pollOutcome env r) x else x

/-! ## Request creation and the approval route -/

/-- Input of `RequestService.createRequest`. -/
structure CreateData where
  userId : Nat
  bookId : String
  qualityProfileId : Nat
  notes : Option String
  deriving DecidableEq, Repr

/-- `RequestService.createRequest` (`request.service.ts` lines 18-68):
rejects a duplicate pending request for the same (user, book) pair,
otherwise inserts a fresh `pending` row with no `bookshelfId`. -/
def createRequest (db : List Req) (newId : Nat) (d : CreateData) (now : Nat) :
    Except String (Req × List Req) :=
  if db.any (fun r =>
      r.userId == d.userId && r.bookId == d.bookId && r.status == Status.pending) then
    .error "You already have a pending request for this book"
  else
    let r : Req :=
      { id := newId
        userId := d.userId
        bookId := d.bookId
        qualityProfileId := d.qualityProfileId
        status := .pending
        bookshelfId := none
        requestedAt := some now
        processedAt := none
        processedBy := none
        notes := d.notes
        completedAt := none
        lastPolledAt := none }
    .ok (r, db ++ [r])

/-- The optional fields accepted by `RequestService.updateRequest`;
absent fields leave the column untouched (drizzle omits `undefined`). -/
structure UpdateData where
  status : Option Status
  notes : Option String
  processedBy : Option Nat
  bookshelfId : Option Nat
  deriving DecidableEq, Repr

/-- Application of `updateRequest`'s `set` object to one row:
`processedAt` is always stamped, the other columns only when provided. -/
def applyUpdate (now : Nat) (u : UpdateData) (x : Req) : Req :=
  { x with
      status := u.status.getD x.status
      notes := match u.notes with | some n => some n | none => x.notes
      processedBy := match u.processedBy with | some p => some p | none => x.processedBy
      bookshelfId := match u.bookshelfId with | some b => some b | none => x.bookshelfId
      processedAt := some now }

/-- `RequestService.updateRequest` on the table: update the row(s) with
the given id. -/
def updateRows (db : List Req) (requestId : Nat) (now : Nat) (u : UpdateData) : List Req :=
  db.map (fun x => if x.id == requestId then applyUpdate now u x else x)

/-- Outcome of the approval route `POST /api/requests/[id]/approve`. -/
inductive ApproveOutcome where
  | requestNotFound
  | bookNotFound
  | approvedOnly (updatedRequest : Req)
  | addFailed (error : String)
  | processing (updatedRequest : Req)
  deriving DecidableEq, Repr

/-- The approval route (`src/app/api/requests/[id]/approve/route.ts`):
load the request and its cached book, short-circuit to a plain
`approved` update when either Bookshelf setting is falsy (no external
call), otherwise run `addBook` and on success mark the request
`processing` with the returned `bookshelfId`. -/
def approveRoute (getBook : String → Option CachedBook)
    (urlSetting apiKeySetting : Option String) (srv : ExtServer) (db : List Req)
    (requestId adminId now : Nat) :
    ApproveOutcome × List Req × ExtServer × List ExtCall :=
  match db.find? (fun r => r.id == requestId) with
  | none => (.requestNotFound, db, srv, [])
  | some existingRequest =>
    match getBook existingRequest.bookId with
    | none => (.bookNotFound, db, srv, [])
    | some book =>
      if !jsTruthy urlSetting || !jsTruthy apiKeySetting then
        let u : UpdateData := ⟨some .approved, none, some adminId, none⟩
        (.approvedOnly (applyUpdate now u existingRequest), updateRows db requestId now u,
          srv, [])
      else
        let bd : AddBookInput :=
          { title := book.title
            author := (book.author).getD "Unknown Author"
            isbn := if jsTruthy book.isbn13 then book.isbn13 else book.isbn
            qualityProfileId := existingRequest.qualityProfileId }
        match addBook srv bd with
        | (.failure e, srv1, t) => (.addFailed e, db, srv1, t)
        | (.success b, srv1, t) =>
          let u : UpdateData := ⟨some .processing, none, some adminId, b⟩
          (.processing (applyUpdate now u existingRequest), updateRows db requestId now u,
            srv1, t)

/-- The invariant of the request rows claimed by the specification:
an `available` row carries a non-null `bookshelfId`. -/
def ReqInv (x : Req) : Prop :=
  x.status = Status.available → x.bookshelfId.isSome = true

/-! ## Concrete poller scenarios -/

/-- A processing request row used by the poll scenarios. -/
def reqP (i : Nat) : Req :=
  { id := i
    userId := 10 + i
    bookId := "W" ++ toString i
    qualityProfileId := 1
    status := .processing
    bookshelfId := some (100 + i)
    requestedAt := some 1
    processedAt := some 2
    processedBy := some 1
    notes := none
    completedAt := none
    lastPolledAt := none }

/-- Poll environment in which every author book list reports zero files. -/
def envZero : PollEnv :=
  { getBook := fun bid => some ⟨"Title of " ++ bid, some "Jane Doe", none, none⟩
    authorBooks := fun _ => .ok [⟨"W1", some 0, false⟩]
    now := 50 }

/-- Poll environment in which the author book list reports three files
for the request's book. -/
def envThree : PollEnv :=
  { getBook := fun bid => some ⟨"Title of " ++ bid, some "Jane Doe", none, none⟩
    authorBooks := fun _ => .ok [⟨"W1", some 3, false⟩]
    now := 60 }

/-- A later poll environment (its responses are irrelevant: an
`available` request is excluded from the query). -/
def envLater : PollEnv :=
  { getBook := fun bid => some ⟨"Title of " ++ bid, some "Jane Doe", none, none⟩
    authorBooks := fun _ => .ok [⟨"W1", some 3, false⟩]
    now := 70 }

/-- Three-request batch for the poll-isolation scenario: item 2's author
book list errors (transport failure), items 1 and 3 have files. -/
def envBatch : PollEnv :=
  { getBook := fun bid => some ⟨"Title of " ++ bid, some "Jane Doe", none, none⟩
    authorBooks := fun aid =>
      if aid == 102 then .error "transport error"
      else .ok [⟨"W1", some 1, false⟩, ⟨"W2", some 1, false⟩, ⟨"W3", some 2, false⟩]
    now := 80 }

/-- Poll environment whose internal book-details lookup fails for every
book id: the loop `continue`s before writing `lastPolledAt`. -/
def envNoBook : PollEnv :=
  { getBook := fun _ => none
    authorBooks := fun _ => .ok [⟨"W1", some 0, false⟩]
    now := 90 }

/-- Create-data for the invariant scenario. -/
def dC6 : CreateData := ⟨1, "W9", 1, none⟩

/-- The row `createRequest` inserts for `dC6` at instant 5 with id 1. -/
def rowC6 : Req :=
  { id := 1
    userId := 1
    bookId := "W9"
    qualityProfileId := 1
    status := .pending
    bookshelfId := none
    requestedAt := some 5
    processedAt := none
    processedBy := none
    notes := none
    completedAt := none
    lastPolledAt := none }

/-- A pending row for the approval scenarios. -/
def rowC10 : Req :=
  { id := 4
    userId := 2
    bookId := "W4"
    qualityProfileId := 2
    status := .pending
    bookshelfId := none
    requestedAt := some 1
    processedAt := none
    processedBy := none
    notes := none
    completedAt := none
    lastPolledAt := none }

/-- Book-cache lookup for the approval scenarios. -/
def gbC10 : String → Option CachedBook :=
  fun _ => some ⟨"The Hobbit", some "Jane Doe", none, none⟩

/-- A server for the approval scenarios (never contacted when the
settings are absent). -/
def srvC10 : ExtServer :=
  { metaAuthors := fun _ => []
    metaBooks := fun _ => []
    bookLookupOk := fun _ => true
    rootFolders := []
    libraryAuthors := []
    nextId := 1
    postAuthorOverride := none }

/-! ## Helper lemmas -/

theorem bookMatchPred_eq_tiers (q : String) (b : BookRecord) :
    bookMatchPred q b = (tierA q b || tierB q b || tierC q b || tierD q b) := by
  unfold bookMatchPred tierA tierB tierC tierD
  repeat' split
  all_goals simp_all

theorem find?_append_of_none {α : Type} (p : α → Bool) (l1 l2 : List α)
    (h : l1.find? p = none) : (l1 ++ l2).find? p = l2.find? p := by
  induction l1 with
  | nil => rfl
  | cons a tl ih =>
    rw [List.cons_append]
    cases hpa : p a with
    | true => simp [List.find?_cons, hpa] at h
    | false =>
      simp only [List.find?_cons, hpa] at h ⊢
      exact ih h

theorem lookup_isEmpty_congr (srv srv' : ExtServer) (term : String)
    (h : srv'.metaAuthors = srv.metaAuthors) :
    (authorLookupEndpoint srv' term).isEmpty = (authorLookupEndpoint srv term).isEmpty := by
  unfold authorLookupEndpoint
  rw [h]
  cases srv.metaAuthors term <;> rfl

theorem lookup_headI_fid_congr (srv srv' : ExtServer) (term : String)
    (h : srv'.metaAuthors = srv.metaAuthors) :
    (authorLookupEndpoint srv' term).headI.foreignAuthorId
      = (authorLookupEndpoint srv term).headI.foreignAuthorId := by
  unfold authorLookupEndpoint
  rw [h]
  cases srv.metaAuthors term <;> rfl

theorem lookup_headI_name_congr (srv srv' : ExtServer) (term : String)
    (h : srv'.metaAuthors = srv.metaAuthors) :
    (authorLookupEndpoint srv' term).headI.authorName
      = (authorLookupEndpoint srv term).headI.authorName := by
  unfold authorLookupEndpoint
  rw [h]
  cases srv.metaAuthors term <;> rfl

theorem headFid_congr (srv srv' : ExtServer) (term : String)
    (h : srv'.metaAuthors = srv.metaAuthors) : headFid srv' term = headFid srv term := by
  unfold headFid
  exact lookup_headI_fid_congr srv srv' term h

theorem lookup_find_fid (srv : ExtServer) (term fid : String) :
    (authorLookupEndpoint srv term).find? (fun a => a.foreignAuthorId == fid)
      = ((srv.metaAuthors term).find? (fun m => m.foreignAuthorId == fid)).map
          (fun m => ⟨(libFind srv m.foreignAuthorId).map (fun a => a.id),
            m.foreignAuthorId, m.authorName⟩) := by
  unfold authorLookupEndpoint libFind
  rw [List.find?_map]
  rfl

theorem validator_sub :
    strIncludes "AuthorExistsValidator: an author with this id already exists"
      "AuthorExistsValidator" = true := by decide

/-- The three possible behaviours of `POST /author`: a forced override
error, a genuine conflict (author already in the library), or creation. -/
theorem postAuthorEndpoint_cases (srv : ExtServer) (body : AuthorToAdd) :
    (∃ st txt, srv.postAuthorOverride = some (st, txt)
      ∧ postAuthorEndpoint srv body = (.error (st, txt), srv))
    ∨ (srv.postAuthorOverride = none
      ∧ srv.libraryAuthors.any (fun a => a.foreignAuthorId == body.foreignAuthorId) = true
      ∧ postAuthorEndpoint srv body
          = (.error (400, "AuthorExistsValidator: an author with this id already exists"), srv))
    ∨ (srv.postAuthorOverride = none
      ∧ srv.libraryAuthors.any (fun a => a.foreignAuthorId == body.foreignAuthorId) = false
      ∧ postAuthorEndpoint srv body
          = (.ok ⟨srv.nextId, body.foreignAuthorId, body.authorName⟩,
             { srv with
                 libraryAuthors := srv.libraryAuthors
                   ++ [⟨srv.nextId, body.foreignAuthorId, body.authorName⟩]
                 nextId := srv.nextId + 1 })) := by
  unfold postAuthorEndpoint
  cases hov : srv.postAuthorOverride with
  | some e =>
    left
    exact ⟨e.1, e.2, rfl, rfl⟩
  | none =>
    cases hany : srv.libraryAuthors.any (fun a => a.foreignAuthorId == body.foreignAuthorId) with
    | true =>
      right; left
      exact ⟨rfl, rfl, by simp⟩
    | false =>
      right; right
      exact ⟨rfl, rfl, by simp⟩

/-- Characterization of a successful `addBook` run: the static server
fields are preserved, every guard along the success path held, the
returned id is the library id joined through the first author-lookup
result's foreign id, the author is in the resulting library whenever the
server behaved (no override), and the library either was untouched or
gained exactly the one record the POST created. -/
theorem addBook_success_char (srv : ExtServer) (bd : AddBookInput)
    (i : Option Nat) (srv' : ExtServer) (t : List ExtCall)
    (h : addBook srv bd = (.success i, srv', t)) :
    srv'.metaAuthors = srv.metaAuthors
    ∧ srv'.metaBooks = srv.metaBooks
    ∧ srv'.bookLookupOk = srv.bookLookupOk
    ∧ srv'.rootFolders = srv.rootFolders
    ∧ srv'.postAuthorOverride = srv.postAuthorOverride
    ∧ (authorLookupEndpoint srv bd.author).isEmpty = false
    ∧ srv.bookLookupOk (jsStrOr bd.isbn bd.title) = true
    ∧ (∃ bm, findBookMatch bd.title (srv.metaBooks (jsStrOr bd.isbn bd.title)) = some bm)
    ∧ srv.rootFolders.isEmpty = false
    ∧ (∀ st txt, srv.postAuthorOverride = some (st, txt) →
        (st == 400 && strIncludes txt "AuthorExistsValidator") = true)
    ∧ i = (libFind srv' (headFid srv bd.author)).map (fun a => a.id)
    ∧ (srv.postAuthorOverride = none →
        (libFind srv' (headFid srv bd.author)).isSome = true)
    ∧ (srv'.libraryAuthors = srv.libraryAuthors
       ∨ (srv.postAuthorOverride = none
          ∧ libFind srv (headFid srv bd.author) = none
          ∧ srv'.libraryAuthors = srv.libraryAuthors
              ++ [⟨srv.nextId, headFid srv bd.author,
                   (authorLookupEndpoint srv bd.author).headI.authorName⟩])) := by
  by_cases hg1 : (authorLookupEndpoint srv bd.author).isEmpty = true
  · simp only [addBook, hg1, if_true] at h
    simp at h
  rw [Bool.not_eq_true] at hg1
  by_cases hg2 : srv.bookLookupOk (jsStrOr bd.isbn bd.title) = true
  case neg =>
    rw [Bool.not_eq_true] at hg2
    simp only [addBook, hg1, hg2, Bool.false_eq_true, if_false, Bool.not_false, if_true] at h
    simp at h
  cases hbm : findBookMatch bd.title (srv.metaBooks (jsStrOr bd.isbn bd.title)) with
  | none =>
    simp only [addBook, hg1, hg2, hbm, Bool.false_eq_true, if_false, Bool.not_true] at h
    simp at h
  | some bm =>
  by_cases hg4 : srv.rootFolders.isEmpty = true
  · simp only [addBook, hg1, hg2, hbm, hg4, Bool.false_eq_true, if_false, Bool.not_true,
      if_true] at h
    simp at h
  rw [Bool.not_eq_true] at hg4
  rcases postAuthorEndpoint_cases srv (addBookBody srv bd bm) with
    ⟨st, txt, hov, hpost⟩ | ⟨hov, hany, hpost⟩ | ⟨hov, hany, hpost⟩
  · -- forced override error
    by_cases hval : (st == 400 && strIncludes txt "AuthorExistsValidator") = true
    case neg =>
      rw [Bool.not_eq_true] at hval
      simp only [addBook, hg1, hg2, hbm, hg4, hpost, hval, Bool.false_eq_true, if_false,
        Bool.not_true] at h
      simp at h
    cases hfind : (authorLookupEndpoint srv
        (authorLookupEndpoint srv bd.author).headI.authorName).find?
        (fun a => a.foreignAuthorId
          == (authorLookupEndpoint srv bd.author).headI.foreignAuthorId) with
    | none =>
      simp only [addBook, hg1, hg2, hbm, hg4, hpost, hval, hfind, Bool.false_eq_true,
        if_false, Bool.not_true, if_true] at h
      simp at h
    | some ea =>
      simp only [addBook, hg1, hg2, hbm, hg4, hpost, hval, hfind, Bool.false_eq_true,
        if_false, Bool.not_true, if_true] at h
      rw [Prod.mk.injEq, Prod.mk.injEq, AddBookResult.success.injEq] at h
      obtain ⟨hi, hsrv, ht⟩ := h
      subst hsrv
      have heaid : ea.id = (libFind srv (headFid srv bd.author)).map (fun a => a.id) := by
        rw [lookup_find_fid] at hfind
        cases hm : (srv.metaAuthors
            ((authorLookupEndpoint srv bd.author).headI.authorName)).find?
            (fun m => m.foreignAuthorId
              == (authorLookupEndpoint srv bd.author).headI.foreignAuthorId) with
        | none => rw [hm] at hfind; simp at hfind
        | some m0 =>
          rw [hm] at hfind
          have hm0 := List.find?_some hm
          rw [beq_iff_eq] at hm0
          simp only [Option.map_some'] at hfind
          cases hfind
          simp [headFid, hm0]
      refine ⟨rfl, rfl, rfl, rfl, rfl, hg1, hg2, ⟨bm, rfl⟩, hg4, ?_, by rw [← hi, heaid],
        ?_, Or.inl rfl⟩
      · intro st' txt' hsome
        rw [hov] at hsome
        cases hsome
        exact hval
      · intro hnone
        rw [hov] at hnone
        cases hnone
  · -- genuine conflict: author already in the library
    have hval : ((400 : Nat) == 400
        && strIncludes "AuthorExistsValidator: an author with this id already exists"
          "AuthorExistsValidator") = true := by decide
    cases hfind : (authorLookupEndpoint srv
        (authorLookupEndpoint srv bd.author).headI.authorName).find?
        (fun a => a.foreignAuthorId
          == (authorLookupEndpoint srv bd.author).headI.foreignAuthorId) with
    | none =>
      simp only [addBook, hg1, hg2, hbm, hg4, hpost, hval, hfind, Bool.false_eq_true,
        if_false, Bool.not_true, if_true] at h
      simp at h
    | some ea =>
      simp only [addBook, hg1, hg2, hbm, hg4, hpost, hval, hfind, Bool.false_eq_true,
        if_false, Bool.not_true, if_true] at h
      rw [Prod.mk.injEq, Prod.mk.injEq, AddBookResult.success.injEq] at h
      obtain ⟨hi, hsrv, ht⟩ := h
      subst hsrv
      have heaid : ea.id = (libFind srv (headFid srv bd.author)).map (fun a => a.id) := by
        rw [lookup_find_fid] at hfind
        cases hm : (srv.metaAuthors
            ((authorLookupEndpoint srv bd.author).headI.authorName)).find?
            (fun m => m.foreignAuthorId
              == (authorLookupEndpoint srv bd.author).headI.foreignAuthorId) with
        | none => rw [hm] at hfind; simp at hfind
        | some m0 =>
          rw [hm] at hfind
          have hm0 := List.find?_some hm
          rw [beq_iff_eq] at hm0
          simp only [Option.map_some'] at hfind
          cases hfind
          simp [headFid, hm0]
      refine ⟨rfl, rfl, rfl, rfl, rfl, hg1, hg2, ⟨bm, rfl⟩, hg4, ?_, by rw [← hi, heaid],
        ?_, Or.inl rfl⟩
      · intro st' txt' hsome
        rw [hov] at hsome
        cases hsome
      · intro _
        unfold libFind headFid
        rw [List.find?_isSome]
        rw [List.any_eq_true] at hany
        exact hany
  · -- creation
    simp only [addBook, hg1, hg2, hbm, hg4, hpost, Bool.false_eq_true, if_false,
      Bool.not_true, if_true] at h
    rw [Prod.mk.injEq, Prod.mk.injEq, AddBookResult.success.injEq] at h
    obtain ⟨hi, hsrv, ht⟩ := h
    have hfnone : libFind srv (headFid srv bd.author) = none := by
      unfold libFind
      rw [List.find?_eq_none]
      intro x hx hpx
      have : srv.libraryAuthors.any (fun a =>
          a.foreignAuthorId == (addBookBody srv bd bm).foreignAuthorId) = true :=
        List.any_eq_true.mpr ⟨x, hx, hpx⟩
      rw [this] at hany
      cases hany
    have hlib : libFind srv'
        (headFid srv bd.author)
        = some ⟨srv.nextId, (authorLookupEndpoint srv bd.author).headI.foreignAuthorId,
            (authorLookupEndpoint srv bd.author).headI.authorName⟩ := by
      rw [← hsrv]
      unfold libFind at hfnone ⊢
      simp only
      rw [find?_append_of_none _ _ _ hfnone]
      simp [headFid, addBookBody]
    refine ⟨by rw [← hsrv], by rw [← hsrv], by rw [← hsrv], by rw [← hsrv], by rw [← hsrv],
      hg1, hg2, ⟨bm, rfl⟩, hg4, ?_, ?_, ?_, ?_⟩
    · intro st' txt' hsome
      rw [hov] at hsome
      cases hsome
    · rw [← hi, hlib]
      rfl
    · intro _
      rw [hlib]
      rfl
    · right
      refine ⟨hov, hfnone, ?_⟩
      rw [← hsrv]
      rfl

/-- When the resolved author is already in the library (or an override
forces the conflict response), `addBook` treats the rejected POST as the
success path: it re-runs the author lookup and returns the resolved id,
leaving the server state unchanged. -/
theorem addBook_already_exists (srv : ExtServer) (bd : AddBookInput)
    (hg1 : (authorLookupEndpoint srv bd.author).isEmpty = false)
    (hg2 : srv.bookLookupOk (jsStrOr bd.isbn bd.title) = true)
    (bm : BookRecord)
    (hbm : findBookMatch bd.title (srv.metaBooks (jsStrOr bd.isbn bd.title)) = some bm)
    (hg4 : srv.rootFolders.isEmpty = false)
    (hg5 : ∀ st txt, srv.postAuthorOverride = some (st, txt) →
        (st == 400 && strIncludes txt "AuthorExistsValidator") = true)
    (hex : srv.postAuthorOverride = none →
        (libFind srv (headFid srv bd.author)).isSome = true)
    (ea : AuthorLookupResult)
    (hfind : (authorLookupEndpoint srv
        (authorLookupEndpoint srv bd.author).headI.authorName).find?
        (fun a => a.foreignAuthorId
          == (authorLookupEndpoint srv bd.author).headI.foreignAuthorId) = some ea) :
    ∃ t, addBook srv bd = (.success ea.id, srv, t) := by
  rcases postAuthorEndpoint_cases srv (addBookBody srv bd bm) with
    ⟨st, txt, hov, hpost⟩ | ⟨hov, hany, hpost⟩ | ⟨hov, hany, hpost⟩
  · have hval := hg5 st txt hov
    refine ⟨[.authorLookup bd.author, .bookLookup (jsStrOr bd.isbn bd.title), .rootFolder,
      .postAuthor (addBookBody srv bd bm),
      .authorLookup (authorLookupEndpoint srv bd.author).headI.authorName], ?_⟩
    simp only [addBook, hg1, hg2, hbm, hg4, hpost, hval, hfind, Bool.false_eq_true,
      if_false, Bool.not_true, if_true]
    rfl
  · have hval : ((400 : Nat) == 400
        && strIncludes "AuthorExistsValidator: an author with this id already exists"
          "AuthorExistsValidator") = true := by decide
    refine ⟨[.authorLookup bd.author, .bookLookup (jsStrOr bd.isbn bd.title), .rootFolder,
      .postAuthor (addBookBody srv bd bm),
      .authorLookup (authorLookupEndpoint srv bd.author).headI.authorName], ?_⟩
    simp only [addBook, hg1, hg2, hbm, hg4, hpost, hval, hfind, Bool.false_eq_true,
      if_false, Bool.not_true, if_true]
    rfl
  · exfalso
    have hs := hex hov
    unfold libFind at hs
    rw [List.find?_isSome] at hs
    obtain ⟨x, hx, hpx⟩ := hs
    have : srv.libraryAuthors.any (fun a =>
        a.foreignAuthorId == (addBookBody srv bd bm).foreignAuthorId) = true :=
      List.any_eq_true.mpr ⟨x, hx, hpx⟩
    rw [this] at hany
    cases hany

/-! ## Poller fold lemmas -/

theorem applyOutcome_id (now : Nat) (o : Outcome) (x : Req) :
    (applyOutcome now o x).id = x.id := by
  cases o <;> rfl

theorem applyOutcome_bookshelfId (now : Nat) (o : Outcome) (x : Req) :
    (applyOutcome now o x).bookshelfId = x.bookshelfId := by
  cases o <;> rfl

theorem stepRow_id (env : PollEnv) (x r : Req) : (stepRow env x r).id = x.id := by
  unfold stepRow
  split
  · exact applyOutcome_id env.now (pollOutcome env r) x
  · rfl

theorem stepRow_bookshelfId (env : PollEnv) (x r : Req) :
    (stepRow env x r).bookshelfId = x.bookshelfId := by
  unfold stepRow
  split
  · exact applyOutcome_bookshelfId env.now (pollOutcome env r) x
  · rfl

theorem foldl_stepRow_id (env : PollEnv) (l : List Req) (x : Req) :
    (l.foldl (stepRow env) x).id = x.id := by
  induction l generalizing x with
  | nil => rfl
  | cons r tl ih => rw [List.foldl_cons, ih, stepRow_id]

theorem foldl_pollOne_db (env : PollEnv) (l : List Req) (acc : PollAcc) :
    (l.foldl (pollOne env) acc).db = acc.db.map (fun x => l.foldl (stepRow env) x) := by
  induction l generalizing acc with
  | nil => simp
  | cons r tl ih =>
    rw [List.foldl_cons, ih]
    unfold pollOne
    simp only [List.map_map]
    rfl

theorem foldl_pollOne_checked (env : PollEnv) (l : List Req) (acc : PollAcc) :
    (l.foldl (pollOne env) acc).checked = acc.checked + l.length := by
  induction l generalizing acc with
  | nil => simp
  | cons r tl ih =>
    rw [List.foldl_cons, ih]
    unfold pollOne
    simp only [List.length_cons]
    omega

theorem foldl_pollOne_updated (env : PollEnv) (l : List Req) (acc : PollAcc) :
    (l.foldl (pollOne env) acc).updated
      = acc.updated + l.countP (fun r => isPromoteOutcome (pollOutcome env r)) := by
  induction l generalizing acc with
  | nil => simp
  | cons r tl ih =>
    rw [List.foldl_cons, ih]
    unfold pollOne
    rw [List.countP_cons]
    simp only
    omega

theorem foldl_pollOne_errors (env : PollEnv) (l : List Req) (acc : PollAcc) :
    (l.foldl (pollOne env) acc).errors
      = acc.errors + l.countP (fun r => isErrOutcome (pollOutcome env r)) := by
  induction l generalizing acc with
  | nil => simp
  | cons r tl ih =>
    rw [List.foldl_cons, ih]
    unfold pollOne
    rw [List.countP_cons]
    simp only
    omega

theorem foldl_stepRow_of_ne (env : PollEnv) (l : List Req) (x : Req)
    (hx : ∀ r ∈ l, ¬ r.id = x.id) : l.foldl (stepRow env) x = x := by
  induction l with
  | nil => rfl
  | cons r tl ih =>
    rw [List.foldl_cons]
    have hxr : stepRow env x r = x := by
      unfold stepRow
      rw [if_neg]
      rw [beq_iff_eq]
      intro hc
      exact hx r (List.mem_cons_self r tl) hc.symm
    rw [hxr]
    exact ih (fun s hs => hx s (List.mem_cons_of_mem r hs))

theorem foldl_stepRow_of_mem (env : PollEnv) (l : List Req) (r x : Req)
    (hnd : (l.map (fun s => s.id)).Nodup) (hr : r ∈ l) (hx : x.id = r.id) :
    l.foldl (stepRow env) x = applyOutcome env.now (pollOutcome env r) x := by
  induction l with
  | nil => cases hr
  | cons s tl ih =>
    rw [List.map_cons, List.nodup_cons] at hnd
    rw [List.foldl_cons]
    rcases List.mem_cons.mp hr with rfl | hrtl
    · have hsx : stepRow env x r = applyOutcome env.now (pollOutcome env r) x := by
        unfold stepRow
        rw [if_pos]
        rw [beq_iff_eq]
        exact hx
      rw [hsx]
      apply foldl_stepRow_of_ne
      intro u hu hux
      apply hnd.1
      rw [applyOutcome_id, hx] at hux
      exact List.mem_map.mpr ⟨u, hu, hux⟩
    · have hsx : stepRow env x s = x := by
        unfold stepRow
        rw [if_neg]
        rw [beq_iff_eq]
        intro hc
        apply hnd.1
        exact List.mem_map.mpr ⟨r, hrtl, hx.symm.trans hc⟩
      rw [hsx]
      exact ih hnd.2 hrtl

theorem find?_id_of_mem (db : List Req) (x : Req)
    (hnd : (db.map (fun z => z.id)).Nodup) (hx : x ∈ db) :
    db.find? (fun z => z.id == x.id) = some x := by
  induction db with
  | nil => cases hx
  | cons y tl ih =>
    rw [List.map_cons, List.nodup_cons] at hnd
    rcases List.mem_cons.mp hx with rfl | hxtl
    · simp [List.find?_cons]
    · have hfalse : (y.id == x.id) = false := by
        rw [beq_eq_false_iff_ne]
        intro hc
        exact hnd.1 (List.mem_map.mpr ⟨x, hxtl, hc.symm⟩)
      simp only [List.find?_cons, hfalse]
      exact ih hnd.2 hxtl

theorem poll_db (env : PollEnv) (us ks : Option String) (db : List Req)
    (ht : jsTruthy us = true) (hk : jsTruthy ks = true) :
    (pollProcessingRequests env us ks db).2
      = db.map (fun x => (selectToPoll db).foldl (stepRow env) x) := by
  simp only [pollProcessingRequests, ht, hk, Bool.not_true, Bool.or_self,
    Bool.false_eq_true, if_false]
  by_cases he : (selectToPoll db).isEmpty = true
  · rw [if_pos he]
    rw [List.isEmpty_iff] at he
    rw [he]
    simp
  · rw [if_neg (by simp [he])]
    exact foldl_pollOne_db env (selectToPoll db) ⟨db, 0, 0, 0, []⟩

theorem poll_counts (env : PollEnv) (us ks : Option String) (db : List Req)
    (ht : jsTruthy us = true) (hk : jsTruthy ks = true) :
    (pollProcessingRequests env us ks db).1.checked = (selectToPoll db).length
    ∧ (pollProcessingRequests env us ks db).1.updated
        = (selectToPoll db).countP (fun r => isPromoteOutcome (pollOutcome env r))
    ∧ (pollProcessingRequests env us ks db).1.errors
        = (selectToPoll db).countP (fun r => isErrOutcome (pollOutcome env r)) := by
  simp only [pollProcessingRequests, ht, hk, Bool.not_true, Bool.or_self,
    Bool.false_eq_true, if_false]
  by_cases he : (selectToPoll db).isEmpty = true
  · rw [if_pos he]
    rw [List.isEmpty_iff] at he
    rw [he]
    simp
  · rw [if_neg (by simp [he])]
    refine ⟨?_, ?_, ?_⟩
    · rw [foldl_pollOne_checked]
      simp
    · rw [foldl_pollOne_updated]
      simp
    · rw [foldl_pollOne_errors]
      simp

theorem poll_ids (env : PollEnv) (us ks : Option String) (db : List Req)
    (ht : jsTruthy us = true) (hk : jsTruthy ks = true) :
    ((pollProcessingRequests env us ks db).2).map (fun z => z.id)
      = db.map (fun z => z.id) := by
  rw [poll_db env us ks db ht hk]
  rw [List.map_map]
  apply List.map_congr_left
  intro x _
  exact foldl_stepRow_id env (selectToPoll db) x

theorem poll_row (env : PollEnv) (us ks : Option String) (db : List Req) (x : Req)
    (ht : jsTruthy us = true) (hk : jsTruthy ks = true)
    (hnd : (db.map (fun z => z.id)).Nodup) (hx : x ∈ db) :
    ((pollProcessingRequests env us ks db).2).find? (fun z => z.id == x.id)
      = some ((selectToPoll db).foldl (stepRow env) x) := by
  rw [poll_db env us ks db ht hk]
  rw [List.find?_map]
  have hcomp : ((fun z => z.id == x.id)
        ∘ (fun y => (selectToPoll db).foldl (stepRow env) y))
      = (fun z => z.id == x.id) := by
    funext y
    simp only [Function.comp]
    rw [foldl_stepRow_id]
  rw [hcomp, find?_id_of_mem db x hnd hx]
  rfl

theorem selectToPoll_ids_nodup (db : List Req) (hnd : (db.map (fun z => z.id)).Nodup) :
    ((selectToPoll db).map (fun z => z.id)).Nodup :=
  hnd.sublist (List.Sublist.map _ (List.filter_sublist db))

theorem selectToPoll_mem (db : List Req) (r : Req) (hr : r ∈ selectToPoll db) :
    r ∈ db ∧ r.status = Status.processing ∧ r.bookshelfId.isSome = true := by
  unfold selectToPoll at hr
  rw [List.mem_filter] at hr
  refine ⟨hr.1, ?_, ?_⟩
  · have := hr.2
    rw [Bool.and_eq_true] at this
    exact beq_iff_eq.mp this.1
  · have := hr.2
    rw [Bool.and_eq_true] at this
    exact this.2

theorem mem_selectToPoll (db : List Req) (r : Req) (hr : r ∈ db)
    (hst : r.status = Status.processing) (hb : r.bookshelfId.isSome = true) :
    r ∈ selectToPoll db := by
  unfold selectToPoll
  rw [List.mem_filter]
  refine ⟨hr, ?_⟩
  rw [Bool.and_eq_true]
  exact ⟨beq_iff_eq.mpr hst, hb⟩

theorem id_inj_of_nodup (db : List Req) (hnd : (db.map (fun z => z.id)).Nodup)
    (x y : Req) (hx : x ∈ db) (hy : y ∈ db) (hxy : x.id = y.id) : x = y := by
  induction db with
  | nil => cases hx
  | cons z tl ih =>
    rw [List.map_cons, List.nodup_cons] at hnd
    rcases List.mem_cons.mp hx with rfl | hxtl <;> rcases List.mem_cons.mp hy with rfl | hytl
    · rfl
    · exact absurd (List.mem_map.mpr ⟨y, hytl, hxy.symm⟩) hnd.1
    · exact absurd (List.mem_map.mpr ⟨x, hxtl, hxy⟩) hnd.1
    · exact ih hnd.2 hxtl hytl

theorem poll_not_configured (env : PollEnv) (us ks : Option String) (db : List Req)
    (h : (!jsTruthy us || !jsTruthy ks) = true) :
    pollProcessingRequests env us ks db = (⟨0, 0, 0, []⟩, db) := by
  unfold pollProcessingRequests
  rw [if_pos h]

/-- The poll loop preserves the status/bookshelfId invariant of every
table row: a promotion only fires on a row whose id matches a selected
request, which with distinct ids carries a non-null `bookshelfId`. -/
theorem foldl_stepRow_inv (env : PollEnv) (db : List Req)
    (hnd : (db.map (fun z => z.id)).Nodup) (x : Req) (hx : x ∈ db) :
    ∀ l : List Req, (∀ s ∈ l, s ∈ db ∧ s.bookshelfId.isSome = true) →
    ∀ c, c.id = x.id → c.bookshelfId = x.bookshelfId → ReqInv c →
    ReqInv (l.foldl (stepRow env) c) := by
  intro l
  induction l with
  | nil =>
    intro _ c _ _ hc
    exact hc
  | cons r tl ih =>
    intro hl c hcid hcb hinv
    rw [List.foldl_cons]
    apply ih (fun s hs => hl s (List.mem_cons_of_mem r hs))
    · rw [stepRow_id]
      exact hcid
    · rw [stepRow_bookshelfId]
      exact hcb
    · unfold stepRow
      split
      case isTrue hid =>
        cases ho : pollOutcome env r with
        | skip => exact hinv
        | errorStay =>
          intro hav
          exact hinv hav
        | stay =>
          intro hav
          exact hinv hav
        | promote title =>
          intro _
          show c.bookshelfId.isSome = true
          have hxr : x = r := by
            apply id_inj_of_nodup db hnd x r hx (hl r (List.mem_cons_self r tl)).1
            rw [← hcid]
            exact beq_iff_eq.mp hid
          rw [hcb, hxr]
          exact (hl r (List.mem_cons_self r tl)).2
      case isFalse => exact hinv

theorem applyUpdate_inv_of_status (now : Nat) (u : UpdateData) (x : Req)
    (hst : u.status = some Status.approved ∨ u.status = some Status.processing) :
    ReqInv (applyUpdate now u x) := by
  intro hav
  rcases hst with h | h <;> simp [applyUpdate, h] at hav

theorem updateRows_inv (db : List Req) (rid now : Nat) (u : UpdateData)
    (hst : u.status = some Status.approved ∨ u.status = some Status.processing)
    (hinv : ∀ x ∈ db, ReqInv x) :
    ∀ y ∈ updateRows db rid now u, ReqInv y := by
  intro y hy
  unfold updateRows at hy
  obtain ⟨x, hx, hfx⟩ := List.mem_map.mp hy
  by_cases hid : (x.id == rid) = true
  · rw [if_pos hid] at hfx
    rw [← hfx]
    exact applyUpdate_inv_of_status now u x hst
  · rw [if_neg hid] at hfx
    rw [← hfx]
    exact hinv x hx

/-- The five possible traces of one `addBook` run, in order of how far
the operation progressed. -/
theorem addBook_trace_shape (srv : ExtServer) (bd : AddBookInput)
    (r : AddBookResult) (srv' : ExtServer) (t : List ExtCall)
    (h : addBook srv bd = (r, srv', t)) :
    t = [ExtCall.authorLookup bd.author]
    ∨ t = [ExtCall.authorLookup bd.author, ExtCall.bookLookup (jsStrOr bd.isbn bd.title)]
    ∨ (∃ bm, findBookMatch bd.title (srv.metaBooks (jsStrOr bd.isbn bd.title)) = some bm
       ∧ (t = [ExtCall.authorLookup bd.author, ExtCall.bookLookup (jsStrOr bd.isbn bd.title),
               ExtCall.rootFolder]
          ∨ t = [ExtCall.authorLookup bd.author, ExtCall.bookLookup (jsStrOr bd.isbn bd.title),
                 ExtCall.rootFolder, ExtCall.postAuthor (addBookBody srv bd bm)]
          ∨ t = [ExtCall.authorLookup bd.author, ExtCall.bookLookup (jsStrOr bd.isbn bd.title),
                 ExtCall.rootFolder, ExtCall.postAuthor (addBookBody srv bd bm),
                 ExtCall.authorLookup (authorLookupEndpoint srv bd.author).headI.authorName])) := by
  by_cases hg1 : (authorLookupEndpoint srv bd.author).isEmpty = true
  · simp only [addBook, hg1, if_true] at h
    rw [Prod.mk.injEq, Prod.mk.injEq] at h
    exact Or.inl h.2.2.symm
  rw [Bool.not_eq_true] at hg1
  by_cases hg2 : srv.bookLookupOk (jsStrOr bd.isbn bd.title) = true
  case neg =>
    rw [Bool.not_eq_true] at hg2
    simp only [addBook, hg1, hg2, Bool.false_eq_true, if_false, Bool.not_false, if_true] at h
    rw [Prod.mk.injEq, Prod.mk.injEq] at h
    exact Or.inr (Or.inl h.2.2.symm)
  cases hbm : findBookMatch bd.title (srv.metaBooks (jsStrOr bd.isbn bd.title)) with
  | none =>
    simp only [addBook, hg1, hg2, hbm, Bool.false_eq_true, if_false, Bool.not_true] at h
    rw [Prod.mk.injEq, Prod.mk.injEq] at h
    exact Or.inr (Or.inl h.2.2.symm)
  | some bm =>
  by_cases hg4 : srv.rootFolders.isEmpty = true
  · simp only [addBook, hg1, hg2, hbm, hg4, Bool.false_eq_true, if_false, Bool.not_true,
      if_true] at h
    rw [Prod.mk.injEq, Prod.mk.injEq] at h
    exact Or.inr (Or.inr ⟨bm, rfl, Or.inl h.2.2.symm⟩)
  rw [Bool.not_eq_true] at hg4
  rcases postAuthorEndpoint_cases srv (addBookBody srv bd bm) with
    ⟨st, txt, hov, hpost⟩ | ⟨hov, hany, hpost⟩ | ⟨hov, hany, hpost⟩
  · by_cases hval : (st == 400 && strIncludes txt "AuthorExistsValidator") = true
    case neg =>
      rw [Bool.not_eq_true] at hval
      simp only [addBook, hg1, hg2, hbm, hg4, hpost, hval, Bool.false_eq_true, if_false,
        Bool.not_true] at h
      rw [Prod.mk.injEq, Prod.mk.injEq] at h
      exact Or.inr (Or.inr ⟨bm, rfl, Or.inr (Or.inl h.2.2.symm)⟩)
    cases hfind : (authorLookupEndpoint srv
        (authorLookupEndpoint srv bd.author).headI.authorName).find?
        (fun a => a.foreignAuthorId
          == (authorLookupEndpoint srv bd.author).headI.foreignAuthorId) with
    | none =>
      simp only [addBook, hg1, hg2, hbm, hg4, hpost, hval, hfind, Bool.false_eq_true,
        if_false, Bool.not_true, if_true] at h
      rw [Prod.mk.injEq, Prod.mk.injEq] at h
      exact Or.inr (Or.inr ⟨bm, rfl, Or.inr (Or.inr h.2.2.symm)⟩)
    | some ea =>
      simp only [addBook, hg1, hg2, hbm, hg4, hpost, hval, hfind, Bool.false_eq_true,
        if_false, Bool.not_true, if_true] at h
      rw [Prod.mk.injEq, Prod.mk.injEq] at h
      exact Or.inr (Or.inr ⟨bm, rfl, Or.inr (Or.inr h.2.2.symm)⟩)
  · have hval : ((400 : Nat) == 400
        && strIncludes "AuthorExistsValidator: an author with this id already exists"
          "AuthorExistsValidator") = true := by decide
    cases hfind : (authorLookupEndpoint srv
        (authorLookupEndpoint srv bd.author).headI.authorName).find?
        (fun a => a.foreignAuthorId
          == (authorLookupEndpoint srv bd.author).headI.foreignAuthorId) with
    | none =>
      simp only [addBook, hg1, hg2, hbm, hg4, hpost, hval, hfind, Bool.false_eq_true,
        if_false, Bool.not_true, if_true] at h
      rw [Prod.mk.injEq, Prod.mk.injEq] at h
      exact Or.inr (Or.inr ⟨bm, rfl, Or.inr (Or.inr h.2.2.symm)⟩)
    | some ea =>
      simp only [addBook, hg1, hg2, hbm, hg4, hpost, hval, hfind, Bool.false_eq_true,
        if_false, Bool.not_true, if_true] at h
      rw [Prod.mk.injEq, Prod.mk.injEq] at h
      exact Or.inr (Or.inr ⟨bm, rfl, Or.inr (Or.inr h.2.2.symm)⟩)
  · simp only [addBook, hg1, hg2, hbm, hg4, hpost, Bool.false_eq_true, if_false,
      Bool.not_true, if_true] at h
    rw [Prod.mk.injEq, Prod.mk.injEq] at h
    exact Or.inr (Or.inr ⟨bm, rfl, Or.inr (Or.inl h.2.2.symm)⟩)

theorem pollOutcome_stay (env : PollEnv) (r : Req) (a : Nat) (bk : CachedBook)
    (bl : List AuthorBook) (e : AuthorBook)
    (hbid : r.bookshelfId = some a)
    (hgb : env.getBook r.bookId = some bk)
    (hab : env.authorBooks a = .ok bl)
    (hf : bl.find? (fun b => b.foreignBookId == r.bookId) = some e)
    (hc : e.bookFileCount.getD 0 = 0) :
    pollOutcome env r = Outcome.stay := by
  simp only [pollOutcome, hgb, hbid, Option.getD_some, getAuthorBookStatus, hab, hf, hc]
  cases hgr : e.grabbed <;> simp [hgr]

theorem pollOutcome_promote (env : PollEnv) (r : Req) (a : Nat) (bk : CachedBook)
    (bl : List AuthorBook) (e : AuthorBook)
    (hbid : r.bookshelfId = some a)
    (hgb : env.getBook r.bookId = some bk)
    (hab : env.authorBooks a = .ok bl)
    (hf : bl.find? (fun b => b.foreignBookId == r.bookId) = some e)
    (hc : 0 < e.bookFileCount.getD 0) :
    pollOutcome env r = Outcome.promote bk.title := by
  simp only [pollOutcome, hgb, hbid, Option.getD_some, getAuthorBookStatus, hab, hf]
  rw [if_pos hc]

theorem poll_available_untouched (env : PollEnv) (us ks : Option String) (db : List Req)
    (x : Req) (ht : jsTruthy us = true) (hk : jsTruthy ks = true)
    (hnd : (db.map (fun z => z.id)).Nodup) (hx : x ∈ db)
    (hav : x.status = Status.available) :
    ((pollProcessingRequests env us ks db).2).find? (fun z => z.id == x.id) = some x := by
  have h1 := poll_row env us ks db x ht hk hnd hx
  rw [foldl_stepRow_of_ne] at h1
  · exact h1
  · intro s hs hsid
    have hm := selectToPoll_mem db s hs
    have hsx : s = x := id_inj_of_nodup db hnd s x hm.1 hx hsid
    have hc := hm.2.1
    rw [hsx, hav] at hc
    cases hc

/-! ## Claim theorems -/

/-- Claim C3 counterexample: for query title "The Hobbit" with the
candidate list `["The Hobbit: Annotated Edition", "The Hobbit"]`, the
code selects the first candidate (a normalized-equality match, tier (b))
even though the second candidate is an exact tier-(a) match, so tier
priority does not override list position. -/
theorem claim_C3_counterexample :
    findBookMatch "The Hobbit"
      [⟨"The Hobbit: Annotated Edition", "B1", none⟩, ⟨"The Hobbit", "B2", none⟩]
      = some ⟨"The Hobbit: Annotated Edition", "B1", none⟩
    ∧ tierA "The Hobbit" ⟨"The Hobbit", "B2", none⟩ = true
    ∧ tierA "The Hobbit" ⟨"The Hobbit: Annotated Edition", "B1", none⟩ = false
    ∧ tierB "The Hobbit" ⟨"The Hobbit: Annotated Edition", "B1", none⟩ = true := by
  refine ⟨?_, ?_, ?_, ?_⟩ <;> decide

/-- Claim C3 (amended): candidate selection evaluates all four matching
strategies per candidate in a single pass and accepts the first
candidate, in list order, satisfying the disjunction of the four tiers;
the tiers are not applied as ordered priority classes across the
candidate list. -/
theorem claim_C3_amended (q : String) (l : List BookRecord) :
    findBookMatch q l
      = l.find? (fun b => tierA q b || tierB q b || tierC q b || tierD q b) := by
  unfold findBookMatch
  have hp : bookMatchPred q = fun b => tierA q b || tierB q b || tierC q b || tierD q b :=
    funext (fun b => bookMatchPred_eq_tiers q b)
  rw [hp]

/-- Claim C7: when the author lookup returns an empty array, `addBook`
fails with the AuthorNotFound error, the only external call made is that
author lookup (in particular no book-lookup call), and the external
state is unchanged. -/
theorem claim_C7_no_match (srv : ExtServer) (bd : AddBookInput)
    (h : authorLookupEndpoint srv bd.author = []) :
    addBook srv bd
      = (.failure "Author not found in metadata provider", srv,
         [ExtCall.authorLookup bd.author]) := by
  have he : (authorLookupEndpoint srv bd.author).isEmpty = true := by
    rw [h]
    rfl
  simp only [addBook, he, if_true]

/-- Claim C7 witness: the concrete empty-lookup scenario. -/
theorem claim_C7_witness :
    addBook srvC7 bdC7
      = (.failure "Author not found in metadata provider", srvC7,
         [ExtCall.authorLookup bdC7.author]) :=
  claim_C7_no_match srvC7 bdC7 rfl

/-- Claim C8 counterexample: with ISBN "123" present and the ISBN query
returning zero results, `addBook` fails with BookNotFound after exactly
one book-lookup call whose term is the ISBN — there is no title+author
fallback retry — even though the fallback query would have matched the
book; moreover, without an ISBN the query term is the title alone, not
"<title> <authorName>". -/
theorem claim_C8_counterexample :
    (addBook srvC8 bdC8).1 = .failure "Book not found in metadata"
    ∧ (addBook srvC8 bdC8).2.2
        = [ExtCall.authorLookup "Jane Doe", ExtCall.bookLookup "123"]
    ∧ ((addBook srvC8 bdC8).2.2.filter isBookLookupCall).length = 1
    ∧ findBookMatch bdC8.title (srvC8.metaBooks (bdC8.title ++ " " ++ bdC8.author))
        = some ⟨"The Hobbit", "B1", none⟩
    ∧ jsStrOr none "The Hobbit" = "The Hobbit" := by
  refine ⟨?_, ?_, ?_, ?_, ?_⟩ <;> decide

/-- Claim C8 (amended): every `addBook` run performs at most one
book-lookup call, and its query term is the ISBN when present and truthy,
else the bare title (never "<title> <authorName>"); a zero-result ISBN
query is not retried — the run proceeds directly to the BookNotFound
failure. -/
theorem claim_C8_amended (srv : ExtServer) (bd : AddBookInput)
    (r : AddBookResult) (srv' : ExtServer) (t : List ExtCall)
    (h : addBook srv bd = (r, srv', t)) :
    t.filter isBookLookupCall = []
    ∨ t.filter isBookLookupCall = [ExtCall.bookLookup (jsStrOr bd.isbn bd.title)] := by
  rcases addBook_trace_shape srv bd r srv' t h with h1 | h1 | ⟨bm, _, h1 | h1 | h1⟩ <;>
    subst h1
  · left
    rfl
  all_goals right
  all_goals rfl

/-- Claim C8 witness for the amended statement, at the concrete
ISBN scenario. -/
theorem claim_C8_witness :
    ((addBook srvC8 bdC8).2.2).filter isBookLookupCall = []
    ∨ ((addBook srvC8 bdC8).2.2).filter isBookLookupCall
        = [ExtCall.bookLookup (jsStrOr bdC8.isbn bdC8.title)] :=
  claim_C8_amended srvC8 bdC8 (addBook srvC8 bdC8).1 (addBook srvC8 bdC8).2.1
    (addBook srvC8 bdC8).2.2 rfl

/-- Claim C2 counterexample: the author lookup resolves "Jane Doe" to
foreign id `A1` while the matched book's embedded author id is `A2`;
`addBook` succeeds, the POSTed body and the created library record carry
`A1`, and `A2` is never used. -/
theorem claim_C2_counterexample :
    (addBook srvC2 bdC2).1 = .success (some 5)
    ∧ (addBook srvC2 bdC2).2.1.libraryAuthors = [⟨5, "A1", "Jane Doe"⟩]
    ∧ ExtCall.postAuthor (addBookBody srvC2 bdC2 ⟨"The Hobbit", "B1",
        some ⟨"A2", "Jane A. Doe"⟩⟩) ∈ (addBook srvC2 bdC2).2.2
    ∧ (addBookBody srvC2 bdC2 ⟨"The Hobbit", "B1",
        some ⟨"A2", "Jane A. Doe"⟩⟩).foreignAuthorId = "A1"
    ∧ findBookMatch bdC2.title (srvC2.metaBooks "The Hobbit")
        = some ⟨"The Hobbit", "B1", some ⟨"A2", "Jane A. Doe"⟩⟩
    ∧ ("A1" : String) ≠ "A2" := by
  refine ⟨?_, ?_, ?_, ?_, ?_, ?_⟩ <;> decide

/-- Claim C2 (amended): the registered author identity is always the
step-1 lookup result — every author POSTed by `addBook` carries the
foreign id and name of the first author-lookup result; the matched
book's embedded author identifier is never consulted. -/
theorem claim_C2_amended (srv : ExtServer) (bd : AddBookInput)
    (r : AddBookResult) (srv' : ExtServer) (t : List ExtCall)
    (h : addBook srv bd = (r, srv', t))
    (body : AuthorToAdd) (hb : ExtCall.postAuthor body ∈ t) :
    body.foreignAuthorId = (authorLookupEndpoint srv bd.author).headI.foreignAuthorId
    ∧ body.authorName = (authorLookupEndpoint srv bd.author).headI.authorName := by
  rcases addBook_trace_shape srv bd r srv' t h with h1 | h1 | ⟨bm, _, h1 | h1 | h1⟩ <;>
    subst h1 <;> simp at hb
  all_goals subst hb
  all_goals exact ⟨rfl, rfl⟩

/-- Claim C2 witness for the amended statement, at the concrete
embedded-author scenario. -/
theorem claim_C2_witness :
    (addBookBody srvC2 bdC2 ⟨"The Hobbit", "B1",
        some ⟨"A2", "Jane A. Doe"⟩⟩).foreignAuthorId
      = (authorLookupEndpoint srvC2 bdC2.author).headI.foreignAuthorId
    ∧ (addBookBody srvC2 bdC2 ⟨"The Hobbit", "B1",
        some ⟨"A2", "Jane A. Doe"⟩⟩).authorName
      = (authorLookupEndpoint srvC2 bdC2.author).headI.authorName :=
  claim_C2_amended srvC2 bdC2 (addBook srvC2 bdC2).1 (addBook srvC2 bdC2).2.1
    (addBook srvC2 bdC2).2.2 rfl _ (by decide)

/-- Claim C1: submission is idempotent. A successful `addBook` run
followed by a second run of the same input against the resulting
external state succeeds again (the second POST's "already exists"
rejection is the success path: the author lookup is re-run and the
existing author resolved), returns the same `bookshelfId`, leaves the
author library untouched, and — when the server behaves (no override)
and the author was initially absent — the library holds exactly one
record for that foreign author id. The hypothesis `hcons` is the
metadata provider's self-consistency: looking the resolved author up by
their canonical name returns them. -/
theorem claim_C1_idempotent_submission (srv : ExtServer) (bd : AddBookInput)
    (i1 : Option Nat) (srv1 : ExtServer) (t1 : List ExtCall)
    (h1 : addBook srv bd = (.success i1, srv1, t1))
    (hcons : ∃ m ∈ srv.metaAuthors ((authorLookupEndpoint srv bd.author).headI.authorName),
        m.foreignAuthorId = headFid srv bd.author) :
    ∃ i2 t2, addBook srv1 bd = (.success i2, srv1, t2)
      ∧ i2 = i1
      ∧ (srv.postAuthorOverride = none →
          srv.libraryAuthors.countP
            (fun a => a.foreignAuthorId == headFid srv bd.author) = 0 →
          srv1.libraryAuthors.countP
            (fun a => a.foreignAuthorId == headFid srv bd.author) = 1) := by
  obtain ⟨hp1, hp2, hp3, hp4, hp5, hg1, hg2, hbmx, hg4, hg5, he3, he4, he5⟩ :=
    addBook_success_char srv bd i1 srv1 t1 h1
  obtain ⟨bm, hbm⟩ := hbmx
  have hF : headFid srv1 bd.author = headFid srv bd.author :=
    headFid_congr srv srv1 bd.author hp1
  have hname : (authorLookupEndpoint srv1 bd.author).headI.authorName
      = (authorLookupEndpoint srv bd.author).headI.authorName :=
    lookup_headI_name_congr srv srv1 bd.author hp1
  obtain ⟨m, hm, hmf⟩ := hcons
  have hsome : ((srv.metaAuthors
      ((authorLookupEndpoint srv bd.author).headI.authorName)).find?
      (fun m' => m'.foreignAuthorId == headFid srv bd.author)).isSome = true := by
    rw [List.find?_isSome]
    exact ⟨m, hm, beq_iff_eq.mpr hmf⟩
  rw [Option.isSome_iff_exists] at hsome
  obtain ⟨m0, hm0⟩ := hsome
  have hm0f : m0.foreignAuthorId = headFid srv bd.author := by
    have htmp := List.find?_some hm0
    rw [beq_iff_eq] at htmp
    exact htmp
  have hfind : (authorLookupEndpoint srv1
      ((authorLookupEndpoint srv1 bd.author).headI.authorName)).find?
      (fun a => a.foreignAuthorId
        == (authorLookupEndpoint srv1 bd.author).headI.foreignAuthorId)
      = some ⟨(libFind srv1 m0.foreignAuthorId).map (fun a => a.id),
          m0.foreignAuthorId, m0.authorName⟩ := by
    rw [lookup_find_fid srv1]
    rw [hname, hp1]
    have hF1 : (authorLookupEndpoint srv1 bd.author).headI.foreignAuthorId
        = headFid srv bd.author := hF
    rw [hF1, hm0]
    rfl
  have hex1 : srv1.postAuthorOverride = none →
      (libFind srv1 (headFid srv1 bd.author)).isSome = true := by
    intro hnone
    rw [hF]
    apply he4
    rw [← hp5]
    exact hnone
  obtain ⟨t2, h2⟩ := addBook_already_exists srv1 bd
    (by rw [lookup_isEmpty_congr srv srv1 bd.author hp1]; exact hg1)
    (by rw [hp3]; exact hg2)
    bm (by rw [hp2]; exact hbm)
    (by rw [hp4]; exact hg4)
    (by intro st txt hsome2; exact hg5 st txt (by rw [← hp5]; exact hsome2))
    hex1
    ⟨(libFind srv1 m0.foreignAuthorId).map (fun a => a.id), m0.foreignAuthorId, m0.authorName⟩
    hfind
  refine ⟨(libFind srv1 m0.foreignAuthorId).map (fun a => a.id), t2, h2, ?_, ?_⟩
  · rw [he3, hm0f]
  · intro hovn hcnt
    rcases he5 with hsame | ⟨_, _, happ⟩
    · have h4 := he4 hovn
      unfold libFind at h4
      rw [hsame] at h4
      rw [List.find?_isSome] at h4
      obtain ⟨x, hx, hpx⟩ := h4
      rw [List.countP_eq_zero] at hcnt
      exact absurd hpx (hcnt x hx)
    · rw [happ, List.countP_append, hcnt]
      simp [List.countP_cons]

/-- Claim C1 witness: the concrete scenario run twice — same id
`some 7`, second run leaves the library unchanged, exactly one record. -/
theorem claim_C1_witness :
    ∃ i2 t2, addBook (addBook srvC1 bdC1).2.1 bdC1
        = (.success i2, (addBook srvC1 bdC1).2.1, t2)
      ∧ i2 = some 7
      ∧ (srvC1.postAuthorOverride = none →
          srvC1.libraryAuthors.countP
            (fun a => a.foreignAuthorId == headFid srvC1 bdC1.author) = 0 →
          (addBook srvC1 bdC1).2.1.libraryAuthors.countP
            (fun a => a.foreignAuthorId == headFid srvC1 bdC1.author) = 1) :=
  claim_C1_idempotent_submission srvC1 bdC1 (some 7) (addBook srvC1 bdC1).2.1
    (addBook srvC1 bdC1).2.2 rfl (by decide)

/-- Claim C4: poll monotonicity. A `processing` request whose poll
reports zero files stays `processing` (only `lastPolledAt` is stamped);
a later poll reporting files transitions it to `available` with
`completedAt` set to that poll's instant; and any further poll leaves
the row untouched, because `available` rows are excluded from the poll
query — so the transition happens exactly once and `completedAt` is
never overwritten. -/
theorem claim_C4_poll_monotonicity
    (env1 env2 env3 : PollEnv) (us ks : Option String) (db : List Req)
    (r : Req) (a : Nat) (bk1 bk2 : CachedBook) (bl1 bl2 : List AuthorBook)
    (e1 e2 : AuthorBook)
    (ht : jsTruthy us = true) (hk : jsTruthy ks = true)
    (hnd : (db.map (fun z => z.id)).Nodup)
    (hr : r ∈ db) (hst : r.status = Status.processing) (hbid : r.bookshelfId = some a)
    (hgb1 : env1.getBook r.bookId = some bk1)
    (hab1 : env1.authorBooks a = .ok bl1)
    (hf1 : bl1.find? (fun b => b.foreignBookId == r.bookId) = some e1)
    (hc1 : e1.bookFileCount.getD 0 = 0)
    (hgb2 : env2.getBook r.bookId = some bk2)
    (hab2 : env2.authorBooks a = .ok bl2)
    (hf2 : bl2.find? (fun b => b.foreignBookId == r.bookId) = some e2)
    (hc2 : 0 < e2.bookFileCount.getD 0) :
    ((pollProcessingRequests env1 us ks db).2).find? (fun z => z.id == r.id)
      = some { r with lastPolledAt := some env1.now }
    ∧ ((pollProcessingRequests env2 us ks
          (pollProcessingRequests env1 us ks db).2).2).find? (fun z => z.id == r.id)
      = some { r with status := Status.available, completedAt := some env2.now, lastPolledAt := some env2.now }
    ∧ ((pollProcessingRequests env3 us ks
          (pollProcessingRequests env2 us ks
            (pollProcessingRequests env1 us ks db).2).2).2).find?
        (fun z => z.id == r.id)
      = some { r with status := Status.available, completedAt := some env2.now, lastPolledAt := some env2.now } := by
  have ho1 : pollOutcome env1 r = Outcome.stay :=
    pollOutcome_stay env1 r a bk1 bl1 e1 hbid hgb1 hab1 hf1 hc1
  have h1 := poll_row env1 us ks db r ht hk hnd hr
  rw [foldl_stepRow_of_mem env1 (selectToPoll db) r r (selectToPoll_ids_nodup db hnd)
      (mem_selectToPoll db r hr hst (by rw [hbid]; rfl)) rfl, ho1] at h1
  have hnd1 : (((pollProcessingRequests env1 us ks db).2).map (fun z => z.id)).Nodup := by
    rw [poll_ids env1 us ks db ht hk]
    exact hnd
  have hr1 : applyOutcome env1.now Outcome.stay r ∈ (pollProcessingRequests env1 us ks db).2 :=
    List.mem_of_find?_eq_some h1
  have ho2 : pollOutcome env2 (applyOutcome env1.now Outcome.stay r)
      = Outcome.promote bk2.title :=
    pollOutcome_promote env2 (applyOutcome env1.now Outcome.stay r) a bk2 bl2 e2
      hbid hgb2 hab2 hf2 hc2
  have h2 := poll_row env2 us ks (pollProcessingRequests env1 us ks db).2
    (applyOutcome env1.now Outcome.stay r) ht hk hnd1 hr1
  rw [foldl_stepRow_of_mem env2 (selectToPoll (pollProcessingRequests env1 us ks db).2)
      (applyOutcome env1.now Outcome.stay r) (applyOutcome env1.now Outcome.stay r)
      (selectToPoll_ids_nodup (pollProcessingRequests env1 us ks db).2 hnd1)
      (mem_selectToPoll (pollProcessingRequests env1 us ks db).2
        (applyOutcome env1.now Outcome.stay r) hr1 hst (by rw [show (applyOutcome env1.now
          Outcome.stay r).bookshelfId = some a from hbid]; rfl)) rfl, ho2] at h2
  have hnd2 : (((pollProcessingRequests env2 us ks
      (pollProcessingRequests env1 us ks db).2).2).map (fun z => z.id)).Nodup := by
    rw [poll_ids env2 us ks (pollProcessingRequests env1 us ks db).2 ht hk]
    exact hnd1
  have hr2 : applyOutcome env2.now (Outcome.promote bk2.title)
      (applyOutcome env1.now Outcome.stay r)
      ∈ (pollProcessingRequests env2 us ks (pollProcessingRequests env1 us ks db).2).2 :=
    List.mem_of_find?_eq_some h2
  have h3 := poll_available_untouched env3 us ks
    (pollProcessingRequests env2 us ks (pollProcessingRequests env1 us ks db).2).2
    (applyOutcome env2.now (Outcome.promote bk2.title) (applyOutcome env1.now Outcome.stay r))
    ht hk hnd2 hr2 rfl
  exact ⟨h1, h2, h3⟩

/-- Claim C4 witness: the single-request scenario through a zero-file
poll, a three-file poll, and a later poll. -/
theorem claim_C4_witness :
    ((pollProcessingRequests envZero (some "u") (some "k") [reqP 1]).2).find?
        (fun z => z.id == (reqP 1).id)
      = some { reqP 1 with lastPolledAt := some envZero.now }
    ∧ ((pollProcessingRequests envThree (some "u") (some "k")
          (pollProcessingRequests envZero (some "u") (some "k") [reqP 1]).2).2).find?
        (fun z => z.id == (reqP 1).id)
      = some { reqP 1 with status := Status.available, completedAt := some envThree.now, lastPolledAt := some envThree.now }
    ∧ ((pollProcessingRequests envLater (some "u") (some "k")
          (pollProcessingRequests envThree (some "u") (some "k")
            (pollProcessingRequests envZero (some "u") (some "k") [reqP 1]).2).2).2).find?
        (fun z => z.id == (reqP 1).id)
      = some { reqP 1 with status := Status.available, completedAt := some envThree.now, lastPolledAt := some envThree.now } :=
  claim_C4_poll_monotonicity envZero envThree envLater (some "u") (some "k") [reqP 1]
    (reqP 1) 101 ⟨"Title of W1", some "Jane Doe", none, none⟩
    ⟨"Title of W1", some "Jane Doe", none, none⟩
    [⟨"W1", some 0, false⟩] [⟨"W1", some 3, false⟩]
    ⟨"W1", some 0, false⟩ ⟨"W1", some 3, false⟩
    (by decide) (by decide) (by decide) (by decide) (by decide) (by decide)
    (by decide) rfl (by decide) (by decide) (by decide) rfl
    (by decide) (by decide)

/-- Claim C5: poll isolation and aggregate counts. `checked` equals the
number of selected requests, `updated` the number classified available,
`errors` the number of per-item failures (internal book lookup miss,
transport error, or external `error` classification); and any selected
request classified available transitions to `available`, regardless of
what happened to the other requests in the batch. -/
theorem claim_C5_poll_isolation (env : PollEnv) (us ks : Option String) (db : List Req)
    (ht : jsTruthy us = true) (hk : jsTruthy ks = true) :
    (pollProcessingRequests env us ks db).1.checked = (selectToPoll db).length
    ∧ (pollProcessingRequests env us ks db).1.updated
        = (selectToPoll db).countP (fun r => isPromoteOutcome (pollOutcome env r))
    ∧ (pollProcessingRequests env us ks db).1.errors
        = (selectToPoll db).countP (fun r => isErrOutcome (pollOutcome env r))
    ∧ ((db.map (fun z => z.id)).Nodup → ∀ r ∈ selectToPoll db, ∀ title,
        pollOutcome env r = .promote title →
        ((pollProcessingRequests env us ks db).2).find? (fun z => z.id == r.id)
          = some { r with status := Status.available, completedAt := some env.now, lastPolledAt := some env.now }) := by
  obtain ⟨hc, hu, he⟩ := poll_counts env us ks db ht hk
  refine ⟨hc, hu, he, ?_⟩
  intro hnd r hrsel title ho
  have h1 := poll_row env us ks db r ht hk hnd (selectToPoll_mem db r hrsel).1
  rw [foldl_stepRow_of_mem env (selectToPoll db) r r (selectToPoll_ids_nodup db hnd)
      hrsel rfl, ho] at h1
  exact h1

/-- Claim C5 witness: a three-request batch whose second item's author
book list errors still transitions the third item, reporting
`checked 3, errors 1, updated 2`. -/
theorem claim_C5_witness :
    (pollProcessingRequests envBatch (some "u") (some "k")
        [reqP 1, reqP 2, reqP 3]).1.checked = 3
    ∧ (pollProcessingRequests envBatch (some "u") (some "k")
        [reqP 1, reqP 2, reqP 3]).1.errors = 1
    ∧ (pollProcessingRequests envBatch (some "u") (some "k")
        [reqP 1, reqP 2, reqP 3]).1.updated = 2
    ∧ ((pollProcessingRequests envBatch (some "u") (some "k")
          [reqP 1, reqP 2, reqP 3]).2).find? (fun z => z.id == (reqP 3).id)
        = some { reqP 3 with status := Status.available, completedAt := some envBatch.now, lastPolledAt := some envBatch.now } := by
  have h := claim_C5_poll_isolation envBatch (some "u") (some "k") [reqP 1, reqP 2, reqP 3]
    (by decide) (by decide)
  refine ⟨?_, ?_, ?_, ?_⟩
  · rw [h.1]
    decide
  · rw [h.2.2.1]
    decide
  · rw [h.2.1]
    decide
  · exact h.2.2.2 (by decide) (reqP 3) (by decide) "Title of W3" (by decide)

/-- Claim C9 counterexample: a `processing` request whose internal
book-details lookup fails is examined (`checked = 1`, `errors = 1`) but
its row — including `lastPolledAt` — is left entirely unchanged, because
the loop `continue`s before the update statement. -/
theorem claim_C9_counterexample :
    (pollProcessingRequests envNoBook (some "u") (some "k") [reqP 1]).1.checked = 1
    ∧ (pollProcessingRequests envNoBook (some "u") (some "k") [reqP 1]).1.errors = 1
    ∧ (pollProcessingRequests envNoBook (some "u") (some "k") [reqP 1]).2 = [reqP 1]
    ∧ (reqP 1).lastPolledAt = none := by
  refine ⟨?_, ?_, ?_, ?_⟩ <;> decide

/-- Claim C9 (amended): `lastPolledAt` is stamped for every examined
request whose internal book-details lookup succeeds — including those
whose external poll errors — but when the internal book-details lookup
fails the row is left entirely unchanged (no `lastPolledAt` update). -/
theorem claim_C9_amended (env : PollEnv) (us ks : Option String) (db : List Req) (r : Req)
    (ht : jsTruthy us = true) (hk : jsTruthy ks = true)
    (hnd : (db.map (fun z => z.id)).Nodup) (hr : r ∈ selectToPoll db) :
    (env.getBook r.bookId = none →
      ((pollProcessingRequests env us ks db).2).find? (fun z => z.id == r.id) = some r)
    ∧ (∀ bk, env.getBook r.bookId = some bk →
        ∃ r', ((pollProcessingRequests env us ks db).2).find? (fun z => z.id == r.id)
            = some r'
          ∧ r'.lastPolledAt = some env.now ∧ r'.id = r.id) := by
  have h1 := poll_row env us ks db r ht hk hnd (selectToPoll_mem db r hr).1
  rw [foldl_stepRow_of_mem env (selectToPoll db) r r (selectToPoll_ids_nodup db hnd)
      hr rfl] at h1
  constructor
  · intro hgb
    have ho : pollOutcome env r = Outcome.skip := by
      unfold pollOutcome
      rw [hgb]
    rw [ho] at h1
    exact h1
  · intro bk hgb
    refine ⟨applyOutcome env.now (pollOutcome env r) r, h1, ?_,
      applyOutcome_id env.now (pollOutcome env r) r⟩
    unfold pollOutcome
    rw [hgb]
    cases hcl : getAuthorBookStatus (env.authorBooks (r.bookshelfId.getD 0)) r.bookId <;> rfl

/-- Claim C9 witness for the amended statement, at the concrete
failing-book-lookup scenario. -/
theorem claim_C9_witness :
    (envNoBook.getBook (reqP 1).bookId = none →
      ((pollProcessingRequests envNoBook (some "u") (some "k") [reqP 1]).2).find?
        (fun z => z.id == (reqP 1).id) = some (reqP 1))
    ∧ (∀ bk, envNoBook.getBook (reqP 1).bookId = some bk →
        ∃ r', ((pollProcessingRequests envNoBook (some "u") (some "k") [reqP 1]).2).find?
            (fun z => z.id == (reqP 1).id) = some r'
          ∧ r'.lastPolledAt = some envNoBook.now ∧ r'.id = (reqP 1).id) :=
  claim_C9_amended envNoBook (some "u") (some "k") [reqP 1] (reqP 1)
    (by decide) (by decide) (by decide) (by decide)

/-- Claim C6: invariant enforcement. Creation inserts a `pending` row
with no `bookshelfId`; the approval route preserves the invariant that
an `available` row carries a non-null `bookshelfId` (its two updates set
status `approved` or `processing`, never `available`); and the poller
preserves it too, since it promotes only rows selected with a non-null
`bookshelfId`. -/
theorem claim_C6_invariant_enforcement :
    (∀ (db : List Req) (newId : Nat) (d : CreateData) (now : Nat) (r : Req) (db2 : List Req),
        createRequest db newId d now = Except.ok (r, db2) →
        r.status = Status.pending ∧ r.bookshelfId = none)
    ∧ (∀ (getBook : String → Option CachedBook) (us ks : Option String) (srv : ExtServer)
        (db : List Req) (rid aid now : Nat), (∀ x ∈ db, ReqInv x) →
        ∀ y ∈ (approveRoute getBook us ks srv db rid aid now).2.1, ReqInv y)
    ∧ (∀ (env : PollEnv) (us ks : Option String) (db : List Req),
        (db.map (fun z => z.id)).Nodup → (∀ x ∈ db, ReqInv x) →
        ∀ y ∈ (pollProcessingRequests env us ks db).2, ReqInv y) := by
  refine ⟨?_, ?_, ?_⟩
  · intro db newId d now r db2 hok
    simp only [createRequest] at hok
    split at hok
    · cases hok
    · rw [Except.ok.injEq, Prod.mk.injEq] at hok
      rw [← hok.1]
      exact ⟨rfl, rfl⟩
  · intro getBook us ks srv db rid aid now hinv y hy
    rcases hfr : db.find? (fun r => r.id == rid) with _ | req
    · simp only [approveRoute, hfr] at hy
      exact hinv y hy
    rcases hgb : getBook req.bookId with _ | book
    · simp only [approveRoute, hfr, hgb] at hy
      exact hinv y hy
    by_cases hcfg : (!jsTruthy us || !jsTruthy ks) = true
    · simp only [approveRoute, hfr, hgb, hcfg, if_true] at hy
      exact updateRows_inv db rid now _ (Or.inl rfl) hinv y hy
    · rw [Bool.not_eq_true] at hcfg
      rcases haddb : addBook srv
          { title := book.title
            author := (book.author).getD "Unknown Author"
            isbn := if jsTruthy book.isbn13 then book.isbn13 else book.isbn
            qualityProfileId := req.qualityProfileId } with ⟨res, srv1, tr⟩
      cases res with
      | failure e =>
        simp only [approveRoute, hfr, hgb, hcfg, Bool.false_eq_true, if_false, haddb] at hy
        exact hinv y hy
      | success b =>
        simp only [approveRoute, hfr, hgb, hcfg, Bool.false_eq_true, if_false, haddb] at hy
        exact updateRows_inv db rid now _ (Or.inr rfl) hinv y hy
  · intro env us ks db hnd hinv y hy
    by_cases hcfg : (!jsTruthy us || !jsTruthy ks) = true
    · rw [poll_not_configured env us ks db hcfg] at hy
      exact hinv y hy
    · have ht : jsTruthy us = true := by
        cases hu : jsTruthy us
        · exact absurd (by rw [hu]; rfl) hcfg
        · rfl
      have hk2 : jsTruthy ks = true := by
        cases hks : jsTruthy ks
        · exact absurd (by rw [hks]; simp) hcfg
        · rfl
      rw [poll_db env us ks db ht hk2] at hy
      obtain ⟨x, hx, hfx⟩ := List.mem_map.mp hy
      rw [← hfx]
      exact foldl_stepRow_inv env db hnd x hx (selectToPoll db)
        (fun s hs => ⟨(selectToPoll_mem db s hs).1, (selectToPoll_mem db s hs).2.2⟩)
        x rfl rfl (hinv x hx)

/-- Claim C6 witness: the created row is `pending` with no
`bookshelfId`; the approved row and the promoted row both satisfy the
invariant. -/
theorem claim_C6_witness :
    (rowC6.status = Status.pending ∧ rowC6.bookshelfId = none)
    ∧ ReqInv (applyUpdate 20 ⟨some Status.approved, none, some 9, none⟩ rowC10)
    ∧ ReqInv { reqP 1 with status := Status.available, completedAt := some 60, lastPolledAt := some 60 } := by
  refine ⟨?_, ?_, ?_⟩
  · exact claim_C6_invariant_enforcement.1 [] 1 dC6 5 rowC6 [rowC6] rfl
  · exact claim_C6_invariant_enforcement.2.1 gbC10 none none srvC10 [rowC10] 4 9 20
      (by intro x hx hav
          rw [List.mem_singleton] at hx
          subst hx
          simp [rowC10] at hav)
      (applyUpdate 20 ⟨some Status.approved, none, some 9, none⟩ rowC10) (by decide)
  · exact claim_C6_invariant_enforcement.2.2 envThree (some "u") (some "k") [reqP 1]
      (by decide)
      (by intro x hx hav
          rw [List.mem_singleton] at hx
          subst hx
          simp [reqP] at hav)
      { reqP 1 with status := Status.available, completedAt := some 60, lastPolledAt := some 60 } (by decide)

/-- Claim C10: approving an existing request when either Bookshelf
setting is absent (or empty) makes no external call, updates the request
to status `approved` with `bookshelfId` untouched (so still null), and
returns the updated request rather than an error. -/
theorem claim_C10_approve_without_config
    (getBook : String → Option CachedBook) (us ks : Option String) (srv : ExtServer)
    (db : List Req) (rid aid now : Nat) (req : Req) (bk : CachedBook)
    (hreq : db.find? (fun r => r.id == rid) = some req)
    (hbk : getBook req.bookId = some bk)
    (hcfg : (!jsTruthy us || !jsTruthy ks) = true) :
    approveRoute getBook us ks srv db rid aid now
      = (.approvedOnly (applyUpdate now ⟨some Status.approved, none, some aid, none⟩ req),
         updateRows db rid now ⟨some Status.approved, none, some aid, none⟩, srv, [])
    ∧ (applyUpdate now ⟨some Status.approved, none, some aid, none⟩ req).status
        = Status.approved
    ∧ (applyUpdate now ⟨some Status.approved, none, some aid, none⟩ req).bookshelfId
        = req.bookshelfId := by
  refine ⟨?_, rfl, rfl⟩
  simp only [approveRoute, hreq, hbk, hcfg, if_true]

/-- Claim C10 witness: the concrete unconfigured approval. -/
theorem claim_C10_witness :
    approveRoute gbC10 none none srvC10 [rowC10] 4 9 20
      = (.approvedOnly (applyUpdate 20 ⟨some Status.approved, none, some 9, none⟩ rowC10),
         updateRows [rowC10] 4 20 ⟨some Status.approved, none, some 9, none⟩, srvC10, [])
    ∧ (applyUpdate 20 ⟨some Status.approved, none, some 9, none⟩ rowC10).status
        = Status.approved
    ∧ (applyUpdate 20 ⟨some Status.approved, none, some 9, none⟩ rowC10).bookshelfId
        = rowC10.bookshelfId :=
  claim_C10_approve_without_config gbC10 none none srvC10 [rowC10] 4 9 20 rowC10
    ⟨"The Hobbit", some "Jane Doe", none, none⟩ (by decide) (by decide) (by decide)

end Mimirr
